import Mathlib

/-!
Verification of the cache-key generation component of django-easy-cache
(`src/easy_cache/services/key_generator.py`, class `KeyGenerator`), against
the claims drawn from the design specification.

The Python code is shallowly embedded: Python runtime values that can reach
`KeyGenerator` are an inductive `Value`; `json.dumps(_, sort_keys=True,
separators=(",", ":"), default=self._json_default)` is `json_dumps`;
`_filter_dict_for_cache`, `_serialize_collection`, `_process_value`,
`_simple_params` and `generate_key` are translated function by function.

`hashlib.sha256(s.encode()).hexdigest()` is an external cryptographic
primitive, not code of this repository; it is abstracted as an explicit
function parameter `H : String → String` threaded through the definitions.
Properties that depend on it (e.g. digest length 64, hex alphabet) are
stated as hypotheses on `H` where needed.

Python dictionaries are embedded as association lists in insertion order
(string keys only; the repository's tests and spec only exercise string
keys), Python sets as the list of elements in iteration order (iteration
order of a CPython set may depend on insertion order, which is exactly what
the sorting in `_serialize_collection` is meant to neutralise), and Python
exceptions as an explicit error type `PyErr` returned through `Except`.
-/

namespace EasyCache

/-- Python string comparison on a pair of char lists: lexicographic by
Unicode code point. This is the order `sorted` and `json.dumps(...,
sort_keys=True)` use for `str` keys. (Mathlib's `String` order is not used
because its comparison function does not reduce in the kernel.) -/
def listCharLe : List Char → List Char → Bool
  | [], _ => true
  | _ :: _, [] => false
  | a :: as, b :: bs =>
    if a.val.toNat < b.val.toNat then true
    else if b.val.toNat < a.val.toNat then false
    else listCharLe as bs

/-- Python `a <= b` on strings: code-point lexicographic order. -/
def strLeB (a b : String) : Bool := listCharLe a.data b.data

/-- Python string slicing `s[:n]`: the first `n` characters (code points). -/
def pySlice (s : String) (n : Nat) : String := ⟨s.data.take n⟩

/-- Python `sep.join(parts)`. -/
def pyJoin (sep : String) : List String → String
  | [] => ""
  | [x] => x
  | x :: rest => x ++ sep ++ pyJoin sep rest

/-- The runtime values of interest that a call can pass to `KeyGenerator`.
Each constructor models one Python runtime type / duck-type the dispatch in
`_simple_params` and `_json_default` distinguishes:

* `vNone`, `vBool`, `vInt`, `vStr`: JSON-native scalars (Python `None`,
  `bool`, `int`, `str`).
* `vDatetime iso`: a `datetime` instance; `iso` is the text that
  `isoformat(timespec="microseconds")` returns for it.
* `vEnum t m`: an `Enum` member of an enum class named `t`, member name `m`.
* `vObjPk t pk sf`: an object exposing a `pk` attribute (a Django model),
  of class name `t`; `pk` is the string form of its primary key (`str(pk)`
  as interpolated by the f-strings in the source) and `sf` the rest of the
  object's observable state (its `str()` form), which the pk shortcut never
  reads.
* `vOpaque t sf`: an object with none of the recognised capabilities whose
  `str()` is `sf` (the last-resort branch of `_json_default`; per the spec
  this string must not contain a memory address, so it is a function of the
  value).
* `vUnserializable t`: an object of type name `t` whose fallback
  serialization itself raises (e.g. a `__slots__` object whose `__str__`
  raises `TypeError`) - the spec's "an object whose fallback serialization
  itself raises".
* `vDict`, `vList`, `vTuple`, `vSet`, `vFrozenset`: the collections.

The Django-request branch of `_simple_params` (`hasattr(arg, "GET")`) and
the dataclass branch of `_json_default` are framework glue not exercised by
any claim and are not modelled. -/
inductive Value where
  | vNone
  | vBool (b : Bool)
  | vInt (n : Int)
  | vStr (s : String)
  | vDatetime (iso : String)
  | vEnum (typeName member : String)
  | vObjPk (typeName : String) (pk : String) (strForm : String)
  | vOpaque (typeName : String) (strForm : String)
  | vUnserializable (typeName : String)
  | vDict (entries : List (String × Value))
  | vList (elems : List Value)
  | vTuple (elems : List Value)
  | vSet (elems : List Value)
  | vFrozenset (elems : List Value)

/-- Python `type(v).__name__` for the embedded values. -/
def typeName : Value → String
  | .vNone => "NoneType"
  | .vBool _ => "bool"
  | .vInt _ => "int"
  | .vStr _ => "str"
  | .vDatetime _ => "datetime"
  | .vEnum t _ => t
  | .vObjPk t _ _ => t
  | .vOpaque t _ => t
  | .vUnserializable t => t
  | .vDict _ => "dict"
  | .vList _ => "list"
  | .vTuple _ => "tuple"
  | .vSet _ => "set"
  | .vFrozenset _ => "frozenset"

/-- Python exceptions that can cross the functions under study.
`uncachableArgumentError` is `UncachableArgumentError` from
`django_smart_cache/exceptions.py` (raised by `_simple_params`);
`recursionError` is the interpreter's `RecursionError`. -/
inductive PyErr where
  | typeError (msg : String)
  | valueError (msg : String)
  | uncachableArgumentError (msg : String)
  | recursionError
deriving DecidableEq

/-- Python `str(e)` of a caught exception, as interpolated into messages. -/
def errText : PyErr → String
  | .typeError m => m
  | .valueError m => m
  | .uncachableArgumentError m => m
  | .recursionError => "maximum recursion depth exceeded"

instance {ε α : Type} [DecidableEq ε] [DecidableEq α] : DecidableEq (Except ε α)
  | .ok a, .ok b =>
    if h : a = b then .isTrue (by rw [h]) else .isFalse (by intro hc; cases hc; exact h rfl)
  | .error a, .error b =>
    if h : a = b then .isTrue (by rw [h]) else .isFalse (by intro hc; cases hc; exact h rfl)
  | .ok _, .error _ => .isFalse (by intro hc; cases hc)
  | .error _, .ok _ => .isFalse (by intro hc; cases hc)

/-- Sequence a list of fallible results, failing at the first error, in
list order. Used to model the order in which CPython raises when a loop of
serializations contains a failing one. -/
def seqExcept {α : Type} : List (Except PyErr α) → Except PyErr (List α)
  | [] => .ok []
  | x :: rest =>
    match x with
    | .error e => .error e
    | .ok a => (seqExcept rest).map (a :: ·)

/-- The fixed `TypeError` text produced when the raising `__str__` of an
unserializable object fires. The concrete wording comes from the raising
object itself (outside this repository); only its existence and stability
matter to the claims. -/
def unserializableMsg (t : String) : String :=
  "unreadable object of type " ++ t

mutual

/-- Python `str(v)` for the embedded values. Notes: for `vDatetime` the
stored isoformat text stands in for the textual form; containers display
their elements with `str` rather than CPython's `repr` - no verified claim
depends on the string form of a container (it is only ever reached through
the last-resort branch for nested sets). -/
def pyStr : Value → Except PyErr String
  | .vNone => .ok "None"
  | .vBool b => .ok (if b then "True" else "False")
  | .vInt n => .ok (Int.repr n)
  | .vStr s => .ok s
  | .vDatetime iso => .ok iso
  | .vEnum t m => .ok (t ++ "." ++ m)
  | .vObjPk _ _ sf => .ok sf
  | .vOpaque _ sf => .ok sf
  | .vUnserializable t => .error (.typeError (unserializableMsg t))
  | .vDict entries =>
    match seqExcept (pyStrEntries entries) with
    | .error e => .error e
    | .ok parts => .ok ("\x7b" ++ pyJoin (", ") parts ++ "\x7d")
  | .vList elems =>
    match seqExcept (pyStrElems elems) with
    | .error e => .error e
    | .ok parts => .ok ("[" ++ pyJoin (", ") parts ++ "]")
  | .vTuple elems =>
    match seqExcept (pyStrElems elems) with
    | .error e => .error e
    | .ok parts =>
      match parts with
      | [p] => .ok ("(" ++ p ++ ",)")
      | _ => .ok ("(" ++ pyJoin (", ") parts ++ ")")
  | .vSet elems =>
    match seqExcept (pyStrElems elems) with
    | .error e => .error e
    | .ok parts =>
      match parts with
      | [] => .ok "set()"
      | _ => .ok ("\x7b" ++ pyJoin (", ") parts ++ "\x7d")
  | .vFrozenset elems =>
    match seqExcept (pyStrElems elems) with
    | .error e => .error e
    | .ok parts =>
      match parts with
      | [] => .ok "frozenset()"
      | _ => .ok ("frozenset(\x7b" ++ pyJoin (", ") parts ++ "\x7d)")

/-- The `str` forms of a dict's entries, in order (`'key': value`). -/
def pyStrEntries : List (String × Value) → List (Except PyErr String)
  | [] => []
  | (k, v) :: rest => (pyStr v).map (fun s => "'" ++ k ++ "': " ++ s) :: pyStrEntries rest

/-- The `str` forms of a sequence's elements, in order. -/
def pyStrElems : List Value → List (Except PyErr String)
  | [] => []
  | v :: rest => pyStr v :: pyStrElems rest

end

/-- One hexadecimal digit (lowercase), for JSON unicode escapes. -/
def hexDigitChar (n : Nat) : Char :=
  Char.ofNat (if n < 10 then 48 + n else 87 + n)

/-- Four lowercase hex digits of `n` (n < 65536). -/
def hex4 (n : Nat) : String :=
  ⟨[hexDigitChar (n / 4096 % 16), hexDigitChar (n / 256 % 16),
    hexDigitChar (n / 16 % 16), hexDigitChar (n % 16)]⟩

/-- The `\uXXXX` escape CPython's json module emits for a non-ASCII or
control character under `ensure_ascii=True` (surrogate pair beyond the
basic multilingual plane). -/
def uEscape (c : Char) : String :=
  let n := c.val.toNat
  if n ≤ 65535 then "\\u" ++ hex4 n
  else
    let m := n - 65536
    "\\u" ++ hex4 (55296 + m / 1024) ++ "\\u" ++ hex4 (56320 + m % 1024)

/-- How CPython's json module renders one character of a string under its
default `ensure_ascii=True`: the two-character escapes for quote,
backslash and the C0 controls with short names, `\uXXXX` for every other
character outside the printable ASCII range 0x20-0x7e. -/
def jsonEscapeChar (c : Char) : String :=
  if c = '"' then "\\\""
  else if c = '\\' then "\\\\"
  else if c = '\n' then "\\n"
  else if c = '\r' then "\\r"
  else if c = '\t' then "\\t"
  else if c = Char.ofNat 8 then "\\b"
  else if c = Char.ofNat 12 then "\\f"
  else if c.val.toNat < 32 ∨ 126 < c.val.toNat then uEscape c
  else ⟨[c]⟩

/-- A JSON string literal for `s`, as `json.dumps` emits it. -/
def jsonQuote (s : String) : String :=
  "\"" ++ String.join (s.data.map jsonEscapeChar) ++ "\""

/-- Order on keyed entries used both by `dict(sorted(obj.items()))` in
`_serialize_collection` and by `json.dumps(..., sort_keys=True)`: compare
the string keys (dict keys are unique, so CPython's tuple comparison of
`(key, value)` pairs never reaches the values). -/
def entryLe {α : Type} (a b : String × α) : Prop := strLeB a.1 b.1 = true

instance {α : Type} : DecidableRel (@entryLe α) := fun a b => by
  unfold entryLe
  infer_instance

/-- Python's comparison of `(type name, string form)` key tuples, used by
`sorted(list(obj), key=lambda x: (type(x).__name__, str(x)))`: lexicographic
on the pair. -/
def setKeyLeB (a b : String × String) : Bool :=
  if a.1 = b.1 then strLeB a.2 b.2 else strLeB a.1 b.1

/-- The same tuple order lifted to an element tagged with its sort key. -/
def elemKeyLe {α : Type} (a b : (String × String) × α) : Prop :=
  setKeyLeB a.1 b.1 = true

instance {α : Type} : DecidableRel (@elemKeyLe α) := fun a b => by
  unfold elemKeyLe
  infer_instance

/-- `KeyGenerator.MAX_VALUE_LENGTH`, the class constant used by
`_serialize_collection`. -/
def MAX_VALUE_LENGTH : Nat := 100

/-- `KeyGenerator._should_exclude_value`: `isinstance(value,
self.exclude_types)`. Each `Value` constructor stands for exactly one
runtime type, so the isinstance test is membership of the value's type name
in the configured list (subclass relationships between distinct modelled
types are not modelled). -/
def should_exclude_value (exclude_types : List String) (v : Value) : Bool :=
  exclude_types.contains (typeName v)

mutual

/-- `KeyGenerator._filter_dict_for_cache`: drop entries whose value's type
is excluded, recurse into dict values, and filter the elements of list
values (recursing into dict elements). Entry order (Python dict insertion
order) is preserved. -/
def filter_dict_for_cache (excl : List String) : List (String × Value) → List (String × Value)
  | [] => []
  | (k, v) :: rest =>
    if should_exclude_value excl v then filter_dict_for_cache excl rest
    else (k, filter_entry_value excl v) :: filter_dict_for_cache excl rest

/-- The branch on a kept entry's value in `_filter_dict_for_cache`:
recurse into dicts, filter lists, keep everything else unchanged. -/
def filter_entry_value (excl : List String) : Value → Value
  | .vDict d => Value.vDict (filter_dict_for_cache excl d)
  | .vList items => Value.vList (filter_list_items excl items)
  | v => v

/-- The list comprehension inside `_filter_dict_for_cache`: drop excluded
items, filter dict items recursively, keep everything else (including
nested lists) unchanged. -/
def filter_list_items (excl : List String) : List Value → List Value
  | [] => []
  | item :: rest =>
    if should_exclude_value excl item then filter_list_items excl rest
    else filter_item excl item :: filter_list_items excl rest

/-- The per-item branch of that comprehension. -/
def filter_item (excl : List String) : Value → Value
  | .vDict d => Value.vDict (filter_dict_for_cache excl d)
  | v => v

end

/-- Render a JSON object from `(key, serialized value)` pairs: sort by key
(`sort_keys=True`), then emit compactly with the `(",", ":")` separators,
failing at the first value whose serialization failed, in sorted order (the
order in which CPython's encoder visits them). -/
def renderObjPairs (pairs : List (String × Except PyErr String)) : Except PyErr String :=
  let sorted := List.insertionSort entryLe pairs
  match seqExcept (sorted.map (fun kv => kv.2.map (fun s => jsonQuote kv.1 ++ ":" ++ s))) with
  | .error e => .error e
  | .ok parts => .ok ("\x7b" ++ pyJoin (",") parts ++ "\x7d")

/-- Render a JSON array from serialized elements in the given order. -/
def renderArr (elems : List (Except PyErr String)) : Except PyErr String :=
  match seqExcept elems with
  | .error e => .error e
  | .ok parts => .ok ("[" ++ pyJoin (",") parts ++ "]")

/-- The `(type name, str)` sort key of a set element (raises if `str` of
the element raises). -/
def strKeyOf (v : Value) : Except PyErr (String × String) :=
  (pyStr v).map (fun s => (typeName v, s))

/-- Render the sorted-list JSON form of a frozenset reached through
`_json_default`: pair each element's serialization with its sort key, sort
by key (Python's stable `sorted`), and emit as an array. -/
def renderSortedSet (keys : List (String × String)) (sers : List (Except PyErr String)) :
    Except PyErr String :=
  let pairs := keys.zip sers
  renderArr ((List.insertionSort elemKeyLe pairs).map (fun p => p.2))

mutual

/-- `json.dumps(obj, sort_keys=True, separators=(",", ":"),
default=self._json_default)` over the embedded values. The scalar branches
are json's native encodings; the constructor branches for datetime, enum,
pk-objects, opaque objects and frozensets are the corresponding branches of
`KeyGenerator._json_default` (each modelled runtime type matches exactly
one branch of its chain of isinstance/hasattr tests); a non-frozen `set`
matches no branch before the `str(obj)` last resort. -/
def json_dumps : Value → Except PyErr String
  | .vNone => .ok "null"
  | .vBool b => .ok (if b then "true" else "false")
  | .vInt n => .ok (Int.repr n)
  | .vStr s => .ok (jsonQuote s)
  | .vDatetime iso => .ok (jsonQuote iso)
  | .vEnum t m => .ok (jsonQuote (t ++ "." ++ m))
  | .vObjPk t pk _ => .ok (jsonQuote (t ++ ":" ++ pk))
  | .vOpaque _ sf => .ok (jsonQuote sf)
  | .vUnserializable t => .error (.typeError (unserializableMsg t))
  | .vDict entries => renderObjPairs (jd_entries entries)
  | .vList elems => renderArr (jd_elems elems)
  | .vTuple elems => renderArr (jd_elems elems)
  | .vSet elems => (pyStr (.vSet elems)).map jsonQuote
  | .vFrozenset elems =>
    match seqExcept (elems.map strKeyOf) with
    | .error e => .error e
    | .ok keys => renderSortedSet keys (jd_elems elems)

/-- The `(key, serialized value)` pairs of a dict's entries, in entry
order (the rendering sorts them afterwards, which matches CPython's
sort-then-emit because the sort only inspects the keys). -/
def jd_entries : List (String × Value) → List (String × Except PyErr String)
  | [] => []
  | (k, v) :: rest => (k, json_dumps v) :: jd_entries rest

/-- The serializations of a sequence's elements, in order. -/
def jd_elems : List Value → List (Except PyErr String)
  | [] => []
  | v :: rest => json_dumps v :: jd_elems rest

end

/-- `sorted(list(obj), key=lambda x: (type(x).__name__, str(x)))` as used
on sets and frozensets at the top of `_serialize_collection`: CPython's
`sorted` computes all keys first (raising, in list order, if a key raises)
and then stable-sorts by the key tuples. -/
def sortSetElems (elems : List Value) : Except PyErr (List Value) :=
  match seqExcept (elems.map (fun v => (strKeyOf v).map (fun k => (k, v)))) with
  | .error e => .error e
  | .ok keyed => .ok ((List.insertionSort elemKeyLe keyed).map (fun p => p.2))

/-- `KeyGenerator._serialize_collection(obj, for_display=False)`, the form
`_simple_params` uses: sets and frozensets are sorted into lists, tuples
become lists, dicts are filtered by `_filter_dict_for_cache` and key-sorted
(`dict(sorted(obj.items()))`), the result is dumped to compact JSON, and a
JSON text longer than `MAX_VALUE_LENGTH` is replaced by the first 16 hex
characters of its sha256 hexdigest (`H`). The `for_display=True`
pretty-printing branch is only used for the human-readable record, which no
claim touches, and is not modelled. -/
def serialize_collection (H : String → String) (excl : List String) (v : Value) :
    Except PyErr String :=
  match (match v with
         | .vSet es => (sortSetElems es).map Value.vList
         | .vFrozenset es => (sortSetElems es).map Value.vList
         | .vTuple es => .ok (Value.vList es)
         | x => .ok x) with
  | .error e => .error e
  | .ok obj =>
    let obj2 := match obj with
      | .vDict d => Value.vDict (List.insertionSort entryLe (filter_dict_for_cache excl d))
      | x => x
    match json_dumps obj2 with
    | .error e => .error e
    | .ok js => .ok (if js.length > MAX_VALUE_LENGTH then pySlice (H js) 16 else js)

/-- The character cleaning at the end of `_process_value` for string
values: the four successive single-character `replace` calls (newline,
carriage return, NUL, space, each to underscore) are equivalent to this
single character map. -/
def clean_value (s : String) : String :=
  ⟨s.data.map (fun c =>
    if c = '\n' ∨ c = '\r' ∨ c = Char.ofNat 0 ∨ c = ' ' then '_' else c)⟩

/-- `KeyGenerator._process_value`. In every call site of the repository the
argument is the `str` returned by `json.dumps`, so `str(value)` is the
value itself and the `isinstance(value, str)` cleaning branch is the one
taken; the `None` guard is kept for fidelity. A string longer than the
configured `MAX_VALUE_LENGTH` (from the config, passed here as `maxLen`) is
replaced by an underscore followed by the first 8 hex characters of its
sha256 hexdigest. -/
def process_value (H : String → String) (maxLen : Nat) : Option String → Option String
  | none => none
  | some s =>
    if s.length > maxLen then some ("_" ++ pySlice (H s) 8)
    else some (clean_value s)

/-- The identity of the decorated callable as `_simple_params` and
`generate_key` consume it: `__module__`, `__qualname__`, and whether
`inspect.signature` reports a leading `self` parameter. -/
structure Func where
  module : String
  qualname : String
  firstParamIsSelf : Bool

/-- `f"{func.__module__}.{func.__qualname__}"` as set by `generate_key`. -/
def function_identity (f : Func) : String := f.module ++ "." ++ f.qualname

/-- The `KeyGenerator` state the claims depend on. `prefixStr` is the
`prefix` constructor argument (default "easy_cache"); `exclude_types` is
loaded from the configuration key DEFAULT_EXCLUDE_TYPES and
`max_value_length` from the configuration key MAX_VALUE_LENGTH.
Modelled from the spec: `easy_cache/config.py` is not part of the provided
sources; per the spec the configured exclusion set defaults to
date/time-like and unique-identifier types and the maximum value length
defaults to 100; both are read once at construction and immutable. -/
structure KeyGenerator where
  prefixStr : String := "easy_cache"
  exclude_types : List String := ["datetime", "date", "time", "UUID"]
  max_value_length : Nat := 100

/-- Is the argument one of `(dict, list, tuple, set)`? This is the
`isinstance` tuple of the collection branches of `_simple_params`; note
that a `frozenset` is NOT an instance of `set` in Python and therefore
takes the scalar branch. -/
def isCollection : Value → Bool
  | .vDict _ => true
  | .vList _ => true
  | .vTuple _ => true
  | .vSet _ => true
  | _ => false

/-- Does the argument expose a `pk` attribute (`hasattr(arg, "pk")`)? -/
def hasPk : Value → Bool
  | .vObjPk _ _ _ => true
  | _ => false

/-- The `UncachableArgumentError` message for a positional collection
argument whose serialization raised. -/
def argCollectionMsg (t qualname e : String) : String :=
  "Argument of type '" ++ t ++ "' for function '" ++ qualname ++
    "' contains non-serializable objects: " ++ e

/-- The `UncachableArgumentError` message for a positional scalar argument
whose serialization raised. -/
def argScalarMsg (t qualname e : String) : String :=
  "Argument of type '" ++ t ++ "' for function '" ++ qualname ++
    "' is not automatically cachable: " ++ e

/-- The `UncachableArgumentError` message for a keyword collection
argument whose serialization raised. -/
def kwCollectionMsg (key t qualname e : String) : String :=
  "Keyword argument '" ++ key ++ "' of type '" ++ t ++ "' for function '" ++
    qualname ++ "' contains non-serializable objects: " ++ e

/-- The `UncachableArgumentError` message for a keyword scalar argument
whose serialization raised. -/
def kwScalarMsg (key t qualname e : String) : String :=
  "Keyword argument '" ++ key ++ "' of type '" ++ t ++ "' for function '" ++
    qualname ++ "' is not automatically cachable: " ++ e

/-- `except (TypeError, ValueError) as e: raise
UncachableArgumentError(mkMsg(e))`: wrap the two caught exception kinds,
let any other exception propagate unchanged. -/
def catchSerErr (mkMsg : String → String) : PyErr → PyErr
  | .typeError m => .uncachableArgumentError (mkMsg m)
  | .valueError m => .uncachableArgumentError (mkMsg m)
  | e => e

/-- The body of the positional-argument loop of `_simple_params` for one
argument: the `hasattr(arg, "pk")` shortcut, then the collection branch
through `_serialize_collection`, then the scalar branch through
`json.dumps` and `_process_value`. Returns the token this argument
contributes, if any (`if safe_value:` drops `None` and empty tokens on the
scalar branch; the collection branch appends unconditionally). -/
def process_arg (H : String → String) (excl : List String) (maxLen : Nat) (f : Func)
    (arg : Value) : Except PyErr (Option String) :=
  match arg with
  | .vObjPk t pk _ => .ok (some (t ++ ":" ++ pk))
  | _ =>
    if isCollection arg then
      match serialize_collection H excl arg with
      | .ok s => .ok (some s)
      | .error e => .error (catchSerErr (argCollectionMsg (typeName arg) f.qualname) e)
    else
      match json_dumps arg with
      | .ok s =>
        .ok (match process_value H maxLen (some s) with
             | some t => if t = "" then none else some t
             | none => none)
      | .error e => .error (catchSerErr (argScalarMsg (typeName arg) f.qualname) e)

/-- The positional-argument loop of `_simple_params`, collecting the
tokens appended to `simple_values` and raising at the first bad argument. -/
def process_args (H : String → String) (excl : List String) (maxLen : Nat) (f : Func) :
    List Value → Except PyErr (List String)
  | [] => .ok []
  | a :: rest =>
    match process_arg H excl maxLen f a with
    | .error e => .error e
    | .ok tok =>
      (process_args H excl maxLen f rest).map (fun ts =>
        match tok with
        | some t => t :: ts
        | none => ts)

/-- The body of the keyword-argument loop of `_simple_params` for one
non-reserved keyword: the collection branch, then the scalar branch (there
is no `pk` shortcut for keywords). The token is `key=value`. -/
def process_kwarg (H : String → String) (excl : List String) (maxLen : Nat) (f : Func)
    (key : String) (v : Value) : Except PyErr (Option String) :=
  if isCollection v then
    match serialize_collection H excl v with
    | .ok s => .ok (some (key ++ "=" ++ s))
    | .error e => .error (catchSerErr (kwCollectionMsg key (typeName v) f.qualname) e)
  else
    match json_dumps v with
    | .ok s =>
      .ok (match process_value H maxLen (some s) with
           | some t => if t = "" then none else some (key ++ "=" ++ t)
           | none => none)
    | .error e => .error (catchSerErr (kwScalarMsg key (typeName v) f.qualname) e)

/-- The keyword names `_simple_params` skips entirely. -/
def reservedKwNames : List String := ["request", "args", "kwargs"]

/-- The keyword-argument loop of `_simple_params`: keywords named
`request`, `args` or `kwargs` are skipped; the rest contribute `key=value`
tokens in iteration (insertion) order. -/
def process_kwargs (H : String → String) (excl : List String) (maxLen : Nat) (f : Func) :
    List (String × Value) → Except PyErr (List String)
  | [] => .ok []
  | (k, v) :: rest =>
    if reservedKwNames.contains k then process_kwargs H excl maxLen f rest
    else
      match process_kwarg H excl maxLen f k v with
      | .error e => .error e
      | .ok tok =>
        (process_kwargs H excl maxLen f rest).map (fun ts =>
          match tok with
          | some t => t :: ts
          | none => ts)

/-- `KeyGenerator._simple_params`: strip the receiver when the signature's
first parameter is `self` and there is at least one positional argument,
process positional then keyword arguments, and join all collected tokens
with `&`. The returned string is also what `generate_key` records as
`self.original_params` (the human-readable canonical parameter string). -/
def simple_params (H : String → String) (excl : List String) (maxLen : Nat) (f : Func)
    (args : List Value) (kwargs : List (String × Value)) : Except PyErr String :=
  let filteredArgs := if f.firstParamIsSelf && !args.isEmpty then args.tail else args
  match process_args H excl maxLen f filteredArgs with
  | .error e => .error e
  | .ok ts1 =>
    match process_kwargs H excl maxLen f kwargs with
    | .error e => .error e
    | .ok ts2 => .ok (pyJoin ("&") (ts1 ++ ts2))

/-- A `datetime` as far as `strftime("%Y%m%d_%H%M%S")` observes it. -/
structure PyDatetime where
  year : Nat
  month : Nat
  day : Nat
  hour : Nat
  minute : Nat
  second : Nat

/-- Zero-pad the decimal form of `n` to width `w`. -/
def padNum (w : Nat) (n : Nat) : String :=
  let s := Nat.repr n
  if s.length < w then (⟨List.replicate (w - s.length) '0'⟩ : String) ++ s else s

/-- `expiration_date.strftime("%Y%m%d_%H%M%S")`, the expires token
appended to the key (second precision). -/
def strftime_expires (d : PyDatetime) : String :=
  padNum 4 d.year ++ padNum 2 d.month ++ padNum 2 d.day ++ "_" ++
    padNum 2 d.hour ++ padNum 2 d.minute ++ padNum 2 d.second

/-- `KeyGenerator.generate_key`: compute the joined parameter string, hash
it (first 16 hex characters of the sha256 hexdigest `H`), assemble
`[function_name, hashed_params]` plus the optional expires token, join the
non-empty parts with underscores, and put the prefix and a colon in front.
A `datetime` object is always truthy, so `if expiration_date:` is exactly
the `Option` match. -/
def generate_key (H : String → String) (kg : KeyGenerator) (f : Func) (args : List Value)
    (kwargs : List (String × Value)) (expiration_date : Option PyDatetime) :
    Except PyErr String :=
  match simple_params H kg.exclude_types kg.max_value_length f args kwargs with
  | .error e => .error e
  | .ok params =>
    let hashed_params := pySlice (H params) 16
    let key_parts := [function_identity f, hashed_params] ++
      (match expiration_date with
       | some d => [strftime_expires d]
       | none => [])
    let cache_key := pyJoin ("_") (key_parts.filter (fun p => !(p = "")))
    .ok (kg.prefixStr ++ ":" ++ cache_key)

/-! ### A heap model for self-referential dictionaries

An inductive `Value` cannot be cyclic, so the circular-reference claim is
settled over a small explicit heap: a self-referential dict is an address
into a store of dict objects whose entries may point back into the store.
`_filter_dict_for_cache` runs on this store with an explicit stack budget:
every Python call frame consumes one unit, and exhausting the budget is the
interpreter's `RecursionError` (CPython's recursion limit, default 1000).
-/

/-- A value stored in a dict on the heap: an int scalar or a reference to
a dict object. (Only the shapes the circular-reference claim exercises.) -/
inductive SVal where
  | sInt (n : Int)
  | sRef (addr : Nat)
deriving DecidableEq

/-- The heap: dict objects indexed by address. -/
def Heap : Type := List (List (String × SVal))

/-- `type(value).__name__` for stored values. -/
def typeNameS : SVal → String
  | .sInt _ => "int"
  | .sRef _ => "dict"

/-- The filtered output of `_filter_dict_for_cache`: the function builds
fresh (acyclic) dicts, so its result is a plain inductive value. -/
inductive FVal where
  | fInt (n : Int)
  | fDict (entries : List (String × FVal))

/-- The entry loop of `_filter_dict_for_cache` over the heap, abstracted
over the recursive call for dict-valued entries (`nested`, the call that
consumes one more stack frame): drop excluded entries, recurse through
references, keep int scalars. -/
def filter_entries_store (excl : List String)
    (nested : Nat → Except PyErr (List (String × FVal))) :
    List (String × SVal) → Except PyErr (List (String × FVal))
  | [] => .ok []
  | (k, v) :: rest =>
    if (excl.contains (typeNameS v)) then filter_entries_store excl nested rest
    else
      match v with
      | .sInt n => (filter_entries_store excl nested rest).map ((k, FVal.fInt n) :: ·)
      | .sRef a =>
        match nested a with
        | .error e => .error e
        | .ok d => (filter_entries_store excl nested rest).map ((k, FVal.fDict d) :: ·)

/-- `KeyGenerator._filter_dict_for_cache` over the heap, with an explicit
remaining-stack-frames budget: entering a call with no budget left raises
`RecursionError`; a dict-valued entry recurses on the referenced dict
object with one frame fewer. (List-valued entries are not modelled here;
the circular-reference claim passes a dict whose values are scalars and a
self-reference.) -/
def filter_dict_store (excl : List String) (heap : Heap) :
    Nat → List (String × SVal) → Except PyErr (List (String × FVal))
  | 0, _ => .error .recursionError
  | fuel + 1, entries =>
    filter_entries_store excl (fun a => filter_dict_store excl heap fuel (heap.getD a []))
      entries

mutual

/-- Convert a filtered heap dict into a plain `Value` so the rest of the
pipeline (`sorted`, `json.dumps`) is shared with the main model. -/
def fvalToValue : FVal → Value
  | .fInt n => .vInt n
  | .fDict es => .vDict (fvalEntries es)

/-- Entry-wise conversion of a filtered dict. -/
def fvalEntries : List (String × FVal) → List (String × Value)
  | [] => []
  | (k, v) :: rest => (k, fvalToValue v) :: fvalEntries rest

end

/-- `_serialize_collection` on a dict argument living on the heap: filter
first (this is where a self-referential dict exhausts the stack), then
key-sort, dump to compact JSON and length-hash, as in
`serialize_collection`. -/
def serialize_collection_store (H : String → String) (excl : List String) (heap : Heap)
    (fuel : Nat) (addr : Nat) : Except PyErr String :=
  match filter_dict_store excl heap fuel (heap.getD addr []) with
  | .error e => .error e
  | .ok filtered =>
    let obj2 := Value.vDict (List.insertionSort entryLe
      (filtered.map (fun kv => (kv.1, fvalToValue kv.2))))
    match json_dumps obj2 with
    | .error e => .error e
    | .ok js => .ok (if js.length > MAX_VALUE_LENGTH then pySlice (H js) 16 else js)

/-- `generate_key(func=f, args=(d,), kwargs={})` where `d` is the dict
object at `addr` on the heap: the single positional argument takes the
collection branch of `_simple_params` (whose `except (TypeError,
ValueError)` does not catch `RecursionError`), and the rest is the key
assembly of `generate_key`. -/
def generate_key_store (H : String → String) (kg : KeyGenerator) (f : Func) (heap : Heap)
    (fuel : Nat) (addr : Nat) (expiration_date : Option PyDatetime) : Except PyErr String :=
  match (match serialize_collection_store H kg.exclude_types heap fuel addr with
         | .ok s => .ok s
         | .error e =>
           .error (catchSerErr (argCollectionMsg ("dict") f.qualname) e) :
         Except PyErr String) with
  | .error e => .error e
  | .ok tok =>
    let params := pyJoin ("&") [tok]
    let hashed_params := pySlice (H params) 16
    let key_parts := [function_identity f, hashed_params] ++
      (match expiration_date with
       | some d => [strftime_expires d]
       | none => [])
    let cache_key := pyJoin ("_") (key_parts.filter (fun p => !(p = "")))
    .ok (kg.prefixStr ++ ":" ++ cache_key)

/-- Is an exception an instance of the uncachable-argument class? -/
def isUncachableErr : PyErr → Bool
  | .uncachableArgumentError _ => true
  | _ => false

/-! ### Concrete fixtures used by witnesses and counterexamples -/

/-- A concrete stand-in for the sha256 hexdigest in closed statements that
only need some definite hash function: the identity. -/
def H0 : String → String := fun s => s

/-- A concrete stand-in for the sha256 hexdigest satisfying the
length-64/hex-alphabet contract: a constant all-zero digest. -/
def H64 : String → String := fun _ => ⟨List.replicate 64 '0'⟩

/-- A `KeyGenerator` with the default configuration. -/
def kg0 : KeyGenerator := {}

/-- A concrete plain function (no `self` parameter). -/
def f0 : Func := ⟨"app.views", "get_data", false⟩

/-- The self-referential dict of the circular-reference claim:
`d = {"a": 1}; d["self"] = d` as the heap object at address 0. -/
def heap0 : Heap := [[("a", SVal.sInt 1), ("self", SVal.sRef 0)]]

/-- The per-entry effect of `_filter_dict_for_cache` as an `Option`-valued
transform, for reasoning about the loop as a `filterMap`. -/
def entryTransform (excl : List String) (kv : String × Value) : Option (String × Value) :=
  if should_exclude_value excl kv.2 then none
  else some (kv.1, filter_entry_value excl kv.2)

/-- The per-item effect of the list comprehension in
`_filter_dict_for_cache`, as an `Option`-valued transform. -/
def itemTransform (excl : List String) (item : Value) : Option Value :=
  if should_exclude_value excl item then none
  else some (filter_item excl item)

/-- The lowercase hexadecimal alphabet of `hexdigest()`. -/
def hexChars : List Char := "0123456789abcdef".data

/-- A concrete stand-in for the sha256 hexdigest that always returns 64
characters and separates short inputs: the input padded with zeros. -/
def Hpad : String → String :=
  fun s => pySlice (s ++ (⟨List.replicate 64 '0'⟩ : String)) 64

/-- The canonicalized compact JSON text that `_serialize_collection`
computes before its length check: the set/frozenset sorting, the tuple
conversion, the dict filter-and-sort, and the `json.dumps` call. -/
def collection_json (excl : List String) (v : Value) : Except PyErr String :=
  match (match v with
         | .vSet es => (sortSetElems es).map Value.vList
         | .vFrozenset es => (sortSetElems es).map Value.vList
         | .vTuple es => .ok (Value.vList es)
         | x => .ok x) with
  | .error e => .error e
  | .ok obj =>
    json_dumps (match obj with
      | .vDict d => Value.vDict (List.insertionSort entryLe (filter_dict_for_cache excl d))
      | x => x)

/-- A one-hole context describing where, inside a dict argument, a value
sits so that `_filter_dict_for_cache` reaches it: directly as an entry
value, inside a nested dict entry, as an element of a list-valued entry,
or inside a dict element of a list-valued entry. -/
inductive EntryCtx where
  | here (pre : List (String × Value)) (k : String) (post : List (String × Value))
  | deeper (pre : List (String × Value)) (k : String) (c : EntryCtx)
      (post : List (String × Value))
  | inListElem (pre : List (String × Value)) (k : String) (lpre lpost : List Value)
      (post : List (String × Value))
  | inListDict (pre : List (String × Value)) (k : String) (lpre : List Value) (c : EntryCtx)
      (lpost : List Value) (post : List (String × Value))

/-- Plug a value into the hole of a context, producing dict entries. -/
def EntryCtx.fill : EntryCtx → Value → List (String × Value)
  | .here pre k post, u => pre ++ (k, u) :: post
  | .deeper pre k c post, u => pre ++ (k, Value.vDict (c.fill u)) :: post
  | .inListElem pre k lpre lpost post, u => pre ++ (k, Value.vList (lpre ++ u :: lpost)) :: post
  | .inListDict pre k lpre c lpost post, u =>
    pre ++ (k, Value.vList (lpre ++ Value.vDict (c.fill u) :: lpost)) :: post

/-- The type names of the built-in runtime types in the model; a custom
class (enum, model, plain object) does not reuse one of these names. -/
def builtinTypeNames : List String :=
  ["NoneType", "bool", "int", "str", "datetime", "dict", "list", "tuple", "set", "frozenset"]

/-- Set elements whose `(type name, str)` sort key determines their JSON
serialization: the hashable scalars, plus enum members and opaque objects
of genuinely custom type names. (A pk-bearing object does NOT qualify: two
of them can share a type name and string form yet serialize to different
`TypeName:pk` texts - the tie the counterexample to the set-ordering claim
exploits.) -/
def setElemOk : Value → Bool
  | .vNone => true
  | .vBool _ => true
  | .vInt _ => true
  | .vStr _ => true
  | .vDatetime _ => true
  | .vEnum t _ => !(builtinTypeNames.contains t)
  | .vOpaque t _ => !(builtinTypeNames.contains t)
  | _ => false

/-- The string `str(v)` returns when it succeeds (junk on the raising
constructor, which `setElemOk` excludes). -/
def pyStrOk (v : Value) : String :=
  match pyStr v with
  | .ok s => s
  | .error _ => ""

/-- The `(type name, str)` sort key of a well-behaved set element. -/
def sortKeyOf (v : Value) : String × String := (typeName v, pyStrOk v)

/-- The JSON text of a well-behaved set element as a function of its sort
key alone (this is the determinism the sorted-set claim needs). -/
def jsonOfSortKey (k : String × String) : String :=
  if k.1 = "NoneType" then "null"
  else if k.1 = "bool" then (if k.2 = "True" then "true" else "false")
  else if k.1 = "int" then k.2
  else jsonQuote k.2

/-- Substring containment: the message `s` carries the text `sub`. -/
def strContains (s sub : String) : Prop := ∃ a b, s = a ++ sub ++ b

/-! ### Order lemmas for the comparison functions -/

/-- Two characters with the same code point are equal. -/
theorem char_eq_of_valNat_eq {c d : Char} (h : c.val.toNat = d.val.toNat) : c = d :=
  Char.ext (UInt32.ext h)

theorem listCharLe_total : ∀ as bs : List Char, listCharLe as bs = true ∨ listCharLe bs as = true
  | [], _ => Or.inl rfl
  | _ :: _, [] => Or.inr rfl
  | a :: as, b :: bs => by
    by_cases h1 : a.val.toNat < b.val.toNat
    · left
      simp [listCharLe, h1]
    · by_cases h2 : b.val.toNat < a.val.toNat
      · right
        simp [listCharLe, h1, h2]
      · rcases listCharLe_total as bs with h | h
        · left
          simp [listCharLe, h1, h2, h]
        · right
          simp [listCharLe, h1, h2, h]

theorem listCharLe_trans :
    ∀ as bs cs : List Char,
      listCharLe as bs = true → listCharLe bs cs = true → listCharLe as cs = true
  | [], _, _ => fun _ _ => rfl
  | _ :: _, [], _ => fun h _ => by simp [listCharLe] at h
  | _ :: _, _ :: _, [] => fun _ h => by simp [listCharLe] at h
  | a :: as, b :: bs, c :: cs => fun h1 h2 => by
    simp only [listCharLe] at h1 h2 ⊢
    split_ifs at h1 h2 ⊢ <;> first
      | rfl
      | omega
      | (exact listCharLe_trans as bs cs (by assumption) (by assumption))

theorem listCharLe_antisymm :
    ∀ as bs : List Char, listCharLe as bs = true → listCharLe bs as = true → as = bs
  | [], [] => fun _ _ => rfl
  | [], _ :: _ => fun _ h => by simp [listCharLe] at h
  | _ :: _, [] => fun h _ => by simp [listCharLe] at h
  | a :: as, b :: bs => fun h1 h2 => by
    simp only [listCharLe] at h1 h2
    split_ifs at h1 h2 with hc1 hc2 <;> try omega
    have heq : a = b := char_eq_of_valNat_eq (by omega)
    have htl : as = bs := listCharLe_antisymm as bs h1 h2
    rw [heq, htl]

theorem strLeB_total (a b : String) : strLeB a b = true ∨ strLeB b a = true :=
  listCharLe_total a.data b.data

theorem strLeB_trans {a b c : String} (h1 : strLeB a b = true) (h2 : strLeB b c = true) :
    strLeB a c = true :=
  listCharLe_trans a.data b.data c.data h1 h2

theorem strLeB_antisymm {a b : String} (h1 : strLeB a b = true) (h2 : strLeB b a = true) :
    a = b :=
  String.ext (listCharLe_antisymm a.data b.data h1 h2)

theorem setKeyLeB_total (a b : String × String) : setKeyLeB a b = true ∨ setKeyLeB b a = true := by
  unfold setKeyLeB
  by_cases h : a.1 = b.1
  · rw [if_pos h, if_pos h.symm]
    exact strLeB_total a.2 b.2
  · rw [if_neg h, if_neg (fun hc => h hc.symm)]
    exact strLeB_total a.1 b.1

theorem setKeyLeB_antisymm {a b : String × String} (h1 : setKeyLeB a b = true)
    (h2 : setKeyLeB b a = true) : a = b := by
  unfold setKeyLeB at h1 h2
  by_cases h : a.1 = b.1
  · rw [if_pos h] at h1
    rw [if_pos h.symm] at h2
    exact Prod.ext h (strLeB_antisymm h1 h2)
  · rw [if_neg h] at h1
    rw [if_neg (fun hc => h hc.symm)] at h2
    exact absurd (strLeB_antisymm h1 h2) h

theorem setKeyLeB_trans {a b c : String × String} (h1 : setKeyLeB a b = true)
    (h2 : setKeyLeB b c = true) : setKeyLeB a c = true := by
  unfold setKeyLeB at h1 h2 ⊢
  by_cases hab : a.1 = b.1 <;> by_cases hbc : b.1 = c.1
  · rw [if_pos hab] at h1
    rw [if_pos hbc] at h2
    rw [if_pos (hab.trans hbc)]
    exact strLeB_trans h1 h2
  · rw [if_pos hab] at h1
    rw [if_neg hbc] at h2
    rw [if_neg (fun hc => hbc (hab.symm.trans hc))]
    rw [hab]
    exact h2
  · rw [if_neg hab] at h1
    rw [if_pos hbc] at h2
    rw [if_neg (fun hc => hab (hc.trans hbc.symm))]
    rw [← hbc]
    exact h1
  · rw [if_neg hab] at h1
    rw [if_neg hbc] at h2
    by_cases hac : a.1 = c.1
    · exact absurd (strLeB_antisymm h1 (by rw [hac]; exact h2)) hab
    · rw [if_neg hac]
      exact strLeB_trans h1 h2

instance {α : Type} : IsTotal (String × α) entryLe :=
  ⟨fun a b => strLeB_total a.1 b.1⟩

instance {α : Type} : IsTrans (String × α) entryLe :=
  ⟨fun _ _ _ h1 h2 => strLeB_trans h1 h2⟩

instance {α : Type} : IsTotal ((String × String) × α) elemKeyLe :=
  ⟨fun a b => setKeyLeB_total a.1 b.1⟩

instance {α : Type} : IsTrans ((String × String) × α) elemKeyLe :=
  ⟨fun _ _ _ h1 h2 => setKeyLeB_trans h1 h2⟩

/-- Two lists that are permutations of each other, both sorted under a
comparison of their keys that is antisymmetric as far as keys go, with
equal keys forcing equal elements across the two lists, are equal. This is
why the stable sorts in `_serialize_collection` and `json.dumps` are
canonical on the inputs the confirmed claims quantify over. -/
theorem sorted_perm_eq_det {α K : Type} (f : α → K) (le : K → K → Bool)
    (hanti : ∀ x y, le x y = true → le y x = true → x = y) :
    ∀ l1 l2 : List α, l1.Perm l2 →
      l1.Pairwise (fun a b => le (f a) (f b) = true) →
      l2.Pairwise (fun a b => le (f a) (f b) = true) →
      (∀ a ∈ l1, ∀ b ∈ l2, f a = f b → a = b) →
      l1 = l2
  | [], _, hp, _, _, _ => hp.nil_eq
  | _ :: _, [], hp, _, _, _ => by
    have := hp.length_eq
    simp at this
  | a :: t1, b :: t2, hp, hs1, hs2, hdet => by
    have hab : a = b := by
      by_cases heq : a = b
      · exact heq
      · have hbmem : b ∈ a :: t1 := hp.mem_iff.mpr (List.mem_cons_self b t2)
        have hamem : a ∈ b :: t2 := hp.mem_iff.mp (List.mem_cons_self a t1)
        have hbt1 : b ∈ t1 := by
          rcases List.mem_cons.mp hbmem with h | h
          · exact absurd h.symm heq
          · exact h
        have hat2 : a ∈ t2 := by
          rcases List.mem_cons.mp hamem with h | h
          · exact absurd h heq
          · exact h
        have h1 : le (f a) (f b) = true := (List.pairwise_cons.mp hs1).1 b hbt1
        have h2 : le (f b) (f a) = true := (List.pairwise_cons.mp hs2).1 a hat2
        exact hdet a (List.mem_cons_self a t1) b (List.mem_cons_self b t2)
          (hanti (f a) (f b) h1 h2)
    subst hab
    have hpt : t1.Perm t2 := hp.cons_inv
    have hrec := sorted_perm_eq_det f le hanti t1 t2 hpt
      (List.pairwise_cons.mp hs1).2 (List.pairwise_cons.mp hs2).2
      (fun x hx y hy hxy =>
        hdet x (List.mem_cons_of_mem a hx) y (List.mem_cons_of_mem a hy) hxy)
    rw [hrec]

/-! ### The exclusion filter as a filterMap, and the canonical dict sort -/

theorem filter_dict_eq_filterMap (excl : List String) :
    ∀ l : List (String × Value), filter_dict_for_cache excl l = l.filterMap (entryTransform excl)
  | [] => by simp [filter_dict_for_cache]
  | (k, v) :: rest => by
    by_cases h : should_exclude_value excl v <;>
      simp [filter_dict_for_cache, List.filterMap_cons, entryTransform, h,
        filter_dict_eq_filterMap excl rest]

theorem filter_list_eq_filterMap (excl : List String) :
    ∀ l : List Value, filter_list_items excl l = l.filterMap (itemTransform excl)
  | [] => by simp [filter_list_items]
  | item :: rest => by
    by_cases h : should_exclude_value excl item <;>
      simp [filter_list_items, List.filterMap_cons, itemTransform, h,
        filter_list_eq_filterMap excl rest]

/-- The filter never invents or renames keys: the keys of the filtered
dict are a subsequence of the original keys. -/
theorem filter_dict_keys_sublist (excl : List String) :
    ∀ l : List (String × Value),
      ((filter_dict_for_cache excl l).map Prod.fst).Sublist (l.map Prod.fst)
  | [] => by simp [filter_dict_for_cache]
  | (k, v) :: rest => by
    have ih := filter_dict_keys_sublist excl rest
    by_cases h : should_exclude_value excl v
    · simp only [filter_dict_for_cache, if_pos h]
      exact ih.trans (List.sublist_cons_self _ _)
    · simp only [filter_dict_for_cache, if_neg h, List.map_cons]
      exact List.Sublist.cons₂ _ ih

/-- Permutations of a dict's entries filter to permutations. -/
theorem filter_dict_perm (excl : List String) {l1 l2 : List (String × Value)}
    (hp : l1.Perm l2) :
    (filter_dict_for_cache excl l1).Perm (filter_dict_for_cache excl l2) := by
  rw [filter_dict_eq_filterMap, filter_dict_eq_filterMap]
  exact hp.filterMap _

/-- The key-sort used on dict entries is canonical on permutations with
distinct keys: Python's stable `sorted` by key cannot distinguish them. -/
theorem insertionSort_key_nodup_canonical {l1 l2 : List (String × Value)} (hp : l1.Perm l2)
    (hnd : (l1.map Prod.fst).Nodup) :
    List.insertionSort entryLe l1 = List.insertionSort entryLe l2 := by
  have hperm : (List.insertionSort entryLe l1).Perm (List.insertionSort entryLe l2) :=
    ((List.perm_insertionSort entryLe l1).trans hp).trans
      (List.perm_insertionSort entryLe l2).symm
  apply sorted_perm_eq_det Prod.fst strLeB (fun _ _ h1 h2 => strLeB_antisymm h1 h2)
    _ _ hperm
  · exact List.sorted_insertionSort entryLe l1
  · exact List.sorted_insertionSort entryLe l2
  · intro a ha b hb hf
    have ha1 : a ∈ l1 := (List.perm_insertionSort entryLe l1).mem_iff.mp ha
    have hb1 : b ∈ l1 := hp.mem_iff.mpr ((List.perm_insertionSort entryLe l2).mem_iff.mp hb)
    exact List.inj_on_of_nodup_map hnd ha1 hb1 hf

/-- `_serialize_collection` on a dict argument is invariant under
permuting the entries of a dict with distinct keys. -/
theorem serialize_collection_dict_perm (H : String → String) (excl : List String)
    {d1 d2 : List (String × Value)} (hp : d1.Perm d2) (hnd : (d1.map Prod.fst).Nodup) :
    serialize_collection H excl (.vDict d1) = serialize_collection H excl (.vDict d2) := by
  have hsort : List.insertionSort entryLe (filter_dict_for_cache excl d1) =
      List.insertionSort entryLe (filter_dict_for_cache excl d2) := by
    apply insertionSort_key_nodup_canonical (filter_dict_perm excl hp)
    exact hnd.sublist (filter_dict_keys_sublist excl d1)
  unfold serialize_collection
  dsimp only
  rw [hsort]

/-! ### Congruence plumbing from `_serialize_collection` up to `generate_key` -/

/-- Equal collection serializations give equal positional tokens. -/
theorem process_arg_dict_congr {H : String → String} {excl : List String} {maxLen : Nat}
    {f : Func} {d1 d2 : List (String × Value)}
    (h : serialize_collection H excl (.vDict d1) = serialize_collection H excl (.vDict d2)) :
    process_arg H excl maxLen f (.vDict d1) = process_arg H excl maxLen f (.vDict d2) := by
  unfold process_arg
  dsimp only [isCollection, typeName]
  rw [if_pos rfl, if_pos rfl, h]

/-- Replacing one positional argument by one with the same token stream
leaves the whole positional loop unchanged. -/
theorem process_args_congr_one (H : String → String) (excl : List String) (maxLen : Nat)
    (f : Func) (pre post : List Value) {a1 a2 : Value}
    (h : process_arg H excl maxLen f a1 = process_arg H excl maxLen f a2) :
    process_args H excl maxLen f (pre ++ a1 :: post) =
      process_args H excl maxLen f (pre ++ a2 :: post) := by
  induction pre with
  | nil => simp only [List.nil_append, process_args, h]
  | cons x rest ih =>
    simp only [List.cons_append, process_args, List.append_eq]
    rw [ih]

/-- The same replacement through `_simple_params` (including the receiver
stripping, which can only drop the head of the argument list). -/
theorem simple_params_congr_one (H : String → String) (excl : List String) (maxLen : Nat)
    (f : Func) (pre post : List Value) (kwargs : List (String × Value)) {a1 a2 : Value}
    (h : process_arg H excl maxLen f a1 = process_arg H excl maxLen f a2) :
    simple_params H excl maxLen f (pre ++ a1 :: post) kwargs =
      simple_params H excl maxLen f (pre ++ a2 :: post) kwargs := by
  by_cases hs : f.firstParamIsSelf
  · cases pre with
    | nil => simp [simple_params, hs]
    | cons x pre2 =>
      simp only [simple_params, hs, List.cons_append, List.isEmpty_cons, Bool.not_false,
        Bool.and_true, Bool.true_and, if_true, List.tail_cons, reduceIte]
      rw [process_args_congr_one H excl maxLen f pre2 post h]
  · simp only [simple_params, hs, Bool.false_and, Bool.not_false, Bool.false_eq_true,
      if_false, reduceIte]
    rw [process_args_congr_one H excl maxLen f pre post h]

/-- Equal parameter strings give equal keys. -/
theorem generate_key_congr_params {H : String → String} {kg : KeyGenerator} {f : Func}
    {args1 args2 : List Value} {kwargs : List (String × Value)} {e : Option PyDatetime}
    (h : simple_params H kg.exclude_types kg.max_value_length f args1 kwargs =
      simple_params H kg.exclude_types kg.max_value_length f args2 kwargs) :
    generate_key H kg f args1 kwargs e = generate_key H kg f args2 kwargs e := by
  unfold generate_key
  rw [h]

/-- C1. For every dictionary argument (with distinct keys, as Python dicts
have), generating a cache key from it and from any dictionary built by
inserting the same key/value pairs in any other order yields byte-identical
cache keys: `_serialize_collection` filters entry-wise, then sorts the
entries by key, so insertion order never influences the result, whatever
the other arguments, keyword arguments and expiration date are. -/
theorem c1_dict_order_independence (H : String → String) (kg : KeyGenerator) (f : Func)
    (pre post : List Value) (kwargs : List (String × Value)) (e : Option PyDatetime)
    {d1 d2 : List (String × Value)} (hp : d1.Perm d2) (hnd : (d1.map Prod.fst).Nodup) :
    generate_key H kg f (pre ++ Value.vDict d1 :: post) kwargs e =
      generate_key H kg f (pre ++ Value.vDict d2 :: post) kwargs e :=
  generate_key_congr_params
    (simple_params_congr_one H kg.exclude_types kg.max_value_length f pre post kwargs
      (process_arg_dict_congr
        (serialize_collection_dict_perm H kg.exclude_types hp hnd)))

/-- Witness for C1: the spec's example mapping `{"name": "John", "age":
30, "city": "NYC"}` against a rotated insertion order. -/
theorem c1_dict_order_independence_witness :
    generate_key H0 kg0 f0
        [Value.vDict [("name", Value.vStr "John"), ("age", Value.vInt 30),
          ("city", Value.vStr "NYC")]] [] none =
      generate_key H0 kg0 f0
        [Value.vDict [("city", Value.vStr "NYC"), ("name", Value.vStr "John"),
          ("age", Value.vInt 30)]] [] none :=
  c1_dict_order_independence H0 kg0 f0 [] [] [] none
    (by
      have h1 : [("name", Value.vStr "John"), ("age", Value.vInt 30),
          ("city", Value.vStr "NYC")].Perm
          [("name", Value.vStr "John"), ("city", Value.vStr "NYC"),
            ("age", Value.vInt 30)] :=
        List.Perm.cons _ (List.Perm.swap _ _ _)
      have h2 : [("name", Value.vStr "John"), ("city", Value.vStr "NYC"),
          ("age", Value.vInt 30)].Perm
          [("city", Value.vStr "NYC"), ("name", Value.vStr "John"),
            ("age", Value.vInt 30)] :=
        List.Perm.swap _ _ _
      exact h1.trans h2)
    (by decide)

/-! ### C10: reserved keyword names -/

/-- The keyword loop only sees the keywords that survive the reserved-name
filter: skipped names contribute nothing. -/
theorem process_kwargs_filter_reserved (H : String → String) (excl : List String)
    (maxLen : Nat) (f : Func) :
    ∀ kw : List (String × Value),
      process_kwargs H excl maxLen f kw =
        process_kwargs H excl maxLen f
          (kw.filter (fun kv => !(reservedKwNames.contains kv.1)))
  | [] => rfl
  | (k, v) :: rest => by
    by_cases h : reservedKwNames.contains k
    · simp only [process_kwargs, h, if_true, List.filter_cons, Bool.not_true, reduceIte]
      exact process_kwargs_filter_reserved H excl maxLen f rest
    · simp only [process_kwargs, h, if_false, List.filter_cons, Bool.not_false,
        Bool.false_eq_true, reduceIte]
      rw [process_kwargs_filter_reserved H excl maxLen f rest]

/-- C10. Keyword arguments named "request", "args" or "kwargs" are ignored
entirely during key generation: any two keyword mappings that agree outside
those three names (so adding, removing or changing such a keyword) produce
the identical recorded parameter string and the identical cache key. -/
theorem c10_reserved_kwargs_ignored (H : String → String) (kg : KeyGenerator) (f : Func)
    (args : List Value) (e : Option PyDatetime) {kw1 kw2 : List (String × Value)}
    (h : kw1.filter (fun kv => !(reservedKwNames.contains kv.1)) =
      kw2.filter (fun kv => !(reservedKwNames.contains kv.1))) :
    simple_params H kg.exclude_types kg.max_value_length f args kw1 =
      simple_params H kg.exclude_types kg.max_value_length f args kw2 ∧
    generate_key H kg f args kw1 e = generate_key H kg f args kw2 e := by
  have hkw : process_kwargs H kg.exclude_types kg.max_value_length f kw1 =
      process_kwargs H kg.exclude_types kg.max_value_length f kw2 := by
    rw [process_kwargs_filter_reserved, h, ← process_kwargs_filter_reserved]
  have hsp : simple_params H kg.exclude_types kg.max_value_length f args kw1 =
      simple_params H kg.exclude_types kg.max_value_length f args kw2 := by
    unfold simple_params
    rw [hkw]
  exact ⟨hsp, by unfold generate_key; rw [hsp]⟩

/-- Witness for C10: adding a keyword named "request" (with any value) to
a call changes neither the parameter string nor the key. -/
theorem c10_reserved_kwargs_ignored_witness :
    simple_params H0 kg0.exclude_types kg0.max_value_length f0 [Value.vInt 7]
        [("user", Value.vInt 1), ("request", Value.vOpaque "WSGIRequest" "r1")] =
      simple_params H0 kg0.exclude_types kg0.max_value_length f0 [Value.vInt 7]
        [("user", Value.vInt 1)] ∧
    generate_key H0 kg0 f0 [Value.vInt 7]
        [("user", Value.vInt 1), ("request", Value.vOpaque "WSGIRequest" "r1")] none =
      generate_key H0 kg0 f0 [Value.vInt 7] [("user", Value.vInt 1)] none :=
  c10_reserved_kwargs_ignored H0 kg0 f0 [Value.vInt 7] none rfl

/-! ### Shape of the generated key -/

theorem string_ne_empty_of_data_ne_nil {s : String} (h : s.data ≠ []) : s ≠ "" := by
  intro hc
  rw [hc] at h
  exact h rfl

theorem padNum_data_length (w n : Nat) :
    (padNum w n).data.length = max w (Nat.repr n).data.length := by
  unfold padNum
  by_cases h : (Nat.repr n).length < w
  · rw [if_pos h]
    have h2 : (Nat.repr n).data.length < w := h
    simp only [String.data_append]
    simp only [List.length_append, List.length_replicate]
    have h3 : w - (Nat.repr n).length = w - (Nat.repr n).data.length := rfl
    rw [h3]
    omega
  · rw [if_neg h]
    have h2 : ¬((Nat.repr n).data.length < w) := h
    omega

theorem strftime_expires_ne_empty (d : PyDatetime) : strftime_expires d ≠ "" := by
  apply string_ne_empty_of_data_ne_nil
  unfold strftime_expires
  simp only [String.data_append]
  intro hc
  have h4 := padNum_data_length 4 d.year
  have hlen := congrArg List.length hc
  simp only [List.length_append, List.length_nil] at hlen
  omega

theorem function_identity_ne_empty (f : Func) : function_identity f ≠ "" := by
  apply string_ne_empty_of_data_ne_nil
  unfold function_identity
  simp only [String.data_append]
  intro hc
  have hlen := congrArg List.length hc
  simp only [List.length_append, List.length_nil] at hlen
  have h1 : (['.'] : List Char).length = 1 := rfl
  omega

theorem pySlice_data {s : String} {n : Nat} : (pySlice s n).data = s.data.take n := rfl

theorem pySlice_hash_ne_empty {H : String → String} (hH : ∀ s, (H s).data.length = 64)
    (p : String) : pySlice (H p) 16 ≠ "" := by
  apply string_ne_empty_of_data_ne_nil
  rw [pySlice_data]
  intro hc
  have hlen := congrArg List.length hc
  rw [List.length_take, hH p] at hlen
  simp at hlen

/-- What `generate_key` returns when `_simple_params` succeeds: the exact
assembled shape of the key. This is shared shape knowledge used by several
claims (each claim's own theorem only applies it, never another claim's
theorem). -/
theorem generate_key_ok_shape {H : String → String}
    (hH : ∀ s, (H s).data.length = 64) (kg : KeyGenerator) (f : Func) (args : List Value)
    (kwargs : List (String × Value)) (e : Option PyDatetime) {key : String}
    (hk : generate_key H kg f args kwargs e = .ok key) :
    ∃ p, simple_params H kg.exclude_types kg.max_value_length f args kwargs = .ok p ∧
      key = kg.prefixStr ++ ":" ++
        (function_identity f ++ "_" ++
          (pySlice (H p) 16 ++
            (match e with
             | none => ""
             | some d => "_" ++ strftime_expires d))) := by
  unfold generate_key at hk
  cases hsp : simple_params H kg.exclude_types kg.max_value_length f args kwargs with
  | error err =>
    rw [hsp] at hk
    cases hk
  | ok p =>
    rw [hsp] at hk
    simp only [] at hk
    refine ⟨p, rfl, ?_⟩
    have hfid : (!(function_identity f = "" : Bool)) = true := by
      simp [function_identity_ne_empty f]
    have hhash : (!(pySlice (H p) 16 = "" : Bool)) = true := by
      simp [pySlice_hash_ne_empty hH p]
    cases e with
    | none =>
      simp only [List.append_nil, List.filter_cons, hfid, hhash, List.filter_nil,
        if_true] at hk
      cases hk
      simp [pyJoin, String.append_assoc]
    | some d =>
      have hexp : (!(strftime_expires d = "" : Bool)) = true := by
        simp [strftime_expires_ne_empty d]
      simp only [List.cons_append, List.nil_append, List.filter_cons, hfid, hhash, hexp,
        List.filter_nil, if_true] at hk
      cases hk
      simp [pyJoin, String.append_assoc]

/-- C4. For every call on which key generation succeeds, the returned
string has the exact shape `prefix:function_identity_paramsHash` without an
expiration date and `prefix:function_identity_paramsHash_expiresToken` with
one, where `paramsHash` is the first 16 hex characters of the (sha256)
hexdigest of the joined parameter string and `expiresToken` is the
expiration timestamp formatted as `YYYYMMDD_HHMMSS` (second precision).
Stated under the contract of `hashlib.sha256(...).hexdigest()`: 64
characters, all in the lowercase hex alphabet. -/
theorem c4_generate_key_shape {H : String → String}
    (hH : ∀ s, (H s).data.length = 64 ∧ ∀ c ∈ (H s).data, c ∈ hexChars)
    (kg : KeyGenerator) (f : Func) (args : List Value) (kwargs : List (String × Value))
    (e : Option PyDatetime) {key : String}
    (hk : generate_key H kg f args kwargs e = .ok key) :
    ∃ p, simple_params H kg.exclude_types kg.max_value_length f args kwargs = .ok p ∧
      key = kg.prefixStr ++ ":" ++
        (function_identity f ++ "_" ++
          (pySlice (H p) 16 ++
            (match e with
             | none => ""
             | some d => "_" ++ strftime_expires d))) ∧
      (pySlice (H p) 16).data.length = 16 ∧
      (∀ c ∈ (pySlice (H p) 16).data, c ∈ hexChars) := by
  obtain ⟨p, hsp, hshape⟩ := generate_key_ok_shape (fun s => (hH s).1) kg f args kwargs e hk
  refine ⟨p, hsp, hshape, ?_, ?_⟩
  · rw [pySlice_data, List.length_take, (hH p).1]
    omega
  · intro c hc
    rw [pySlice_data] at hc
    exact (hH p).2 c (List.mem_of_mem_take hc)

/-- Witness for C4, at a hash function meeting the length-64/hex contract:
the key for a concrete no-argument call has the stated shape. -/
theorem c4_generate_key_shape_witness :
    ∃ p, simple_params H64 kg0.exclude_types kg0.max_value_length f0 [] [] = .ok p ∧
      "easy_cache:app.views.get_data_0000000000000000" = kg0.prefixStr ++ ":" ++
        (function_identity f0 ++ "_" ++
          (pySlice (H64 p) 16 ++
            (match (none : Option PyDatetime) with
             | none => ""
             | some d => "_" ++ strftime_expires d))) ∧
      (pySlice (H64 p) 16).data.length = 16 ∧
      (∀ c ∈ (pySlice (H64 p) 16).data, c ∈ hexChars) :=
  c4_generate_key_shape
    (fun s => by
      constructor
      · simp [H64]
      · intro c hc
        simp [H64] at hc
        simp [hc, hexChars])
    kg0 f0 [] [] none (by decide)

/-! ### C8: pk-bearing objects -/

theorem string_append_left_cancel {s a b : String} (h : s ++ a = s ++ b) : a = b := by
  have hd := congrArg String.data h
  simp only [String.data_append] at hd
  exact String.ext (List.append_cancel_left hd)

theorem string_append_right_cancel {s a b : String} (h : a ++ s = b ++ s) : a = b := by
  have hd := congrArg String.data h
  simp only [String.data_append] at hd
  exact String.ext (List.append_cancel_right hd)

/-- A single pk-bearing positional argument of a plain function
canonicalizes to the `TypeName:identifier` token, whatever the rest of the
object's state is. -/
theorem simple_params_objpk (H : String → String) (excl : List String) (maxLen : Nat)
    {f : Func} (hf : f.firstParamIsSelf = false) (T pk sf : String) :
    simple_params H excl maxLen f [Value.vObjPk T pk sf] [] = .ok (T ++ ":" ++ pk) := by
  simp [simple_params, hf, process_args, process_arg, process_kwargs, pyJoin, Except.map]

/-- Distinct parameter strings whose truncated digests differ give
distinct keys (the joined parts can be peeled off one by one because none
of them is empty). -/
theorem generate_key_inj_params {H : String → String} (hH : ∀ s, (H s).data.length = 64)
    {kg : KeyGenerator} {f : Func} {args1 args2 : List Value}
    {kwargs : List (String × Value)} {e : Option PyDatetime} {p1 p2 : String}
    (h1 : simple_params H kg.exclude_types kg.max_value_length f args1 kwargs = .ok p1)
    (h2 : simple_params H kg.exclude_types kg.max_value_length f args2 kwargs = .ok p2)
    (hd : pySlice (H p1) 16 ≠ pySlice (H p2) 16) :
    generate_key H kg f args1 kwargs e ≠ generate_key H kg f args2 kwargs e := by
  intro hc
  obtain ⟨q1, hq1, hk1⟩ := @generate_key_ok_shape H hH kg f args1 kwargs e
    ((generate_key H kg f args1 kwargs e).toOption.getD "")
    (by
      unfold generate_key
      rw [h1]
      rfl)
  obtain ⟨q2, hq2, hk2⟩ := @generate_key_ok_shape H hH kg f args2 kwargs e
    ((generate_key H kg f args2 kwargs e).toOption.getD "")
    (by
      unfold generate_key
      rw [h2]
      rfl)
  rw [h1] at hq1
  rw [h2] at hq2
  cases hq1
  cases hq2
  have hkeys : (generate_key H kg f args1 kwargs e).toOption.getD "" =
      (generate_key H kg f args2 kwargs e).toOption.getD "" := by rw [hc]
  rw [hk1, hk2] at hkeys
  have hj := string_append_left_cancel hkeys
  have hj2 := string_append_left_cancel hj
  cases e with
  | none =>
    simp only [String.append_empty] at hj2
    exact hd hj2
  | some d =>
    exact hd (string_append_right_cancel hj2)

/-- C8. Both in-memory instances of a persisted entity with the same type
name and identifier canonicalize to the `TypeName:identifier` token, so
either instance yields the identical cache key regardless of the rest of
the object's state; two instances with different identifier values give
different parameter strings, hence different keys whenever their truncated
digests differ (the claim's "different keys" modulo the residual collision
probability of the 16-character hash truncation, which the spec accepts).
Stated for a plain function (no receiver) under the sha256 digest-length
contract. -/
theorem c8_persisted_entity_identity (H : String → String)
    (hH : ∀ s, (H s).data.length = 64) (kg : KeyGenerator) {f : Func}
    (hf : f.firstParamIsSelf = false) (T pk1 pk2 sf1 sf2 : String) (e : Option PyDatetime) :
    (simple_params H kg.exclude_types kg.max_value_length f [Value.vObjPk T pk1 sf1] [] =
      .ok (T ++ ":" ++ pk1)) ∧
    (pk1 = pk2 →
      generate_key H kg f [Value.vObjPk T pk1 sf1] [] e =
        generate_key H kg f [Value.vObjPk T pk2 sf2] [] e) ∧
    (pk1 ≠ pk2 →
      simple_params H kg.exclude_types kg.max_value_length f [Value.vObjPk T pk1 sf1] [] ≠
        simple_params H kg.exclude_types kg.max_value_length f [Value.vObjPk T pk2 sf2] [] ∧
      (pySlice (H (T ++ ":" ++ pk1)) 16 ≠ pySlice (H (T ++ ":" ++ pk2)) 16 →
        generate_key H kg f [Value.vObjPk T pk1 sf1] [] e ≠
          generate_key H kg f [Value.vObjPk T pk2 sf2] [] e)) := by
  have hs1 := simple_params_objpk H kg.exclude_types kg.max_value_length hf T pk1 sf1
  have hs2 := simple_params_objpk H kg.exclude_types kg.max_value_length hf T pk2 sf2
  refine ⟨hs1, ?_, ?_⟩
  · intro hpk
    subst hpk
    unfold generate_key
    rw [hs1, hs2]
  · intro hpk
    constructor
    · rw [hs1, hs2]
      intro hc
      have hstr : T ++ ":" ++ pk1 = T ++ ":" ++ pk2 := by
        injection hc
      exact hpk (string_append_left_cancel hstr)
    · intro hdig
      exact generate_key_inj_params hH hs1 hs2 hdig

/-- Witness for C8: two `User` instances with pk 1 (different remaining
state) share a key; pk 1 and pk 2 give different parameter strings and
different keys. -/
theorem c8_persisted_entity_identity_witness :
    (generate_key Hpad kg0 f0 [Value.vObjPk "User" "1" "a"] [] none =
      generate_key Hpad kg0 f0 [Value.vObjPk "User" "1" "b"] [] none) ∧
    (simple_params Hpad kg0.exclude_types kg0.max_value_length f0
        [Value.vObjPk "User" "1" "a"] [] ≠
      simple_params Hpad kg0.exclude_types kg0.max_value_length f0
        [Value.vObjPk "User" "2" "b"] []) ∧
    (generate_key Hpad kg0 f0 [Value.vObjPk "User" "1" "a"] [] none ≠
      generate_key Hpad kg0 f0 [Value.vObjPk "User" "2" "b"] [] none) := by
  have hH : ∀ s, (Hpad s).data.length = 64 := by
    intro s
    simp only [Hpad, pySlice_data, String.data_append, List.length_take, List.length_append,
      List.length_replicate]
    omega
  refine ⟨?_, ?_, ?_⟩
  · exact (c8_persisted_entity_identity Hpad hH kg0 rfl "User" "1" "1" "a" "b" none).2.1 rfl
  · exact ((c8_persisted_entity_identity Hpad hH kg0 rfl "User" "1" "2" "a" "b"
      none).2.2 (by decide)).1
  · exact ((c8_persisted_entity_identity Hpad hH kg0 rfl "User" "1" "2" "a" "b"
      none).2.2 (by decide)).2 (by decide)

/-- `_serialize_collection` is the canonicalized JSON text
(`collection_json`) followed by the length-triggered hashing step. -/
theorem serialize_collection_via_json (H : String → String) (excl : List String) (v : Value) :
    serialize_collection H excl v =
      match collection_json excl v with
      | .error e => .error e
      | .ok js => .ok (if js.length > MAX_VALUE_LENGTH then pySlice (H js) 16 else js) := by
  unfold serialize_collection collection_json
  cases hx : (match v with
      | Value.vSet es => (sortSetElems es).map Value.vList
      | Value.vFrozenset es => (sortSetElems es).map Value.vList
      | Value.vTuple es => Except.ok (Value.vList es)
      | x => Except.ok x) with
  | error e => rfl
  | ok obj =>
    cases hj : json_dumps (match obj with
        | Value.vDict d => Value.vDict (List.insertionSort entryLe (filter_dict_for_cache excl d))
        | x => x) <;> simp [hj]

/-- A collection whose canonical JSON is short enough is serialized to
that JSON verbatim, independently of the hash function. -/
theorem serialize_collection_short {excl : List String} {v : Value}
    (hlen : ((collection_json excl v).toOption.getD "").length ≤ MAX_VALUE_LENGTH)
    (H : String → String) : serialize_collection H excl v = collection_json excl v := by
  rw [serialize_collection_via_json]
  cases hj : collection_json excl v with
  | error e => rfl
  | ok js =>
    rw [hj] at hlen
    simp only [Except.toOption, Option.getD] at hlen
    simp [Nat.not_lt.mpr hlen]

/-! ### C6: None arguments and null-valued dict keys -/

/-- Counterexample to C6 as stated: a `None` positional argument DOES
contribute a token. `json.dumps(None)` is the four-character string
"null", which `_process_value` passes through and `_simple_params`
appends, so the joined parameter string of a call with a single `None`
argument is "null", not the empty string the claim requires. -/
theorem c6_none_token_counterexample :
    simple_params H0 kg0.exclude_types kg0.max_value_length f0 [Value.vNone] [] =
      .ok "null" ∧ ("null" : String) ≠ "" := by
  constructor
  · decide
  · decide

/-- C6 as amended: a `None` positional argument contributes the token
`null` (a keyword one contributes `key=null`), and a dictionary with a
null-valued key still canonicalizes differently from the same dictionary
with that key absent (the entry is preserved as JSON `null`, not
dropped). -/
theorem c6_none_token_amended (H : String → String) (excl : List String) (maxLen : Nat)
    {f : Func} (hf : f.firstParamIsSelf = false) (hml : 4 ≤ maxLen) (k : String)
    (hk : reservedKwNames.contains k = false) :
    simple_params H excl maxLen f [Value.vNone] [] = .ok "null" ∧
    simple_params H excl maxLen f [] [(k, Value.vNone)] = .ok (k ++ "=" ++ "null") ∧
    serialize_collection H kg0.exclude_types
        (.vDict [("a", Value.vInt 1), ("b", Value.vNone), ("c", Value.vInt 3)]) ≠
      serialize_collection H kg0.exclude_types
        (.vDict [("a", Value.vInt 1), ("c", Value.vInt 3)]) := by
  have hlen : ("null" : String).length = 4 := rfl
  have hclean : clean_value "null" = "null" := by decide
  have h1 : ¬(("null" : String).length > maxLen) := by
    rw [hlen]
    omega
  have hnp : process_value H maxLen (some "null") = some "null" := by
    simp [process_value, h1, hclean]
  have hk2 : ¬(k ∈ reservedKwNames) := by simpa using hk
  refine ⟨?_, ?_, ?_⟩
  · simp [simple_params, hf, process_args, process_arg, process_kwargs, pyJoin, hnp,
      isCollection, json_dumps, Except.map]
  · simp [simple_params, hf, process_args, process_arg, process_kwargs, pyJoin, hnp, hk,
      hk2, process_kwarg, isCollection, json_dumps, Except.map]
  · rw [serialize_collection_short (by decide) H, serialize_collection_short (by decide) H]
    decide

/-- Witness for the amended C6 at a concrete hash, function, and keyword
name. -/
theorem c6_none_token_amended_witness :
    simple_params H0 ["datetime"] 100 f0 [Value.vNone] [] = .ok "null" ∧
    simple_params H0 ["datetime"] 100 f0 [] [("b", Value.vNone)] = .ok ("b" ++ "=" ++ "null") ∧
    serialize_collection H0 kg0.exclude_types
        (.vDict [("a", Value.vInt 1), ("b", Value.vNone), ("c", Value.vInt 3)]) ≠
      serialize_collection H0 kg0.exclude_types
        (.vDict [("a", Value.vInt 1), ("c", Value.vInt 3)]) :=
  c6_none_token_amended H0 ["datetime"] 100 rfl (by omega) "b" rfl

/-! ### C5: the oversized-value hash -/

set_option maxRecDepth 4000 in
/-- Counterexample to C5 as stated: the oversized-scalar token is NOT a
16-hex-character content hash. For a 101-character string argument the
token `_simple_params` records is an underscore followed by the first 8
characters of the digest of the serialized form (9 characters in total),
which differs from the first 16 digest characters the claim specifies. -/
theorem c5_scalar_hash_counterexample :
    simple_params H0 kg0.exclude_types kg0.max_value_length f0
        [Value.vStr (⟨List.replicate 101 'a'⟩ : String)] [] =
      .ok ("_" ++ pySlice (H0 (jsonQuote (⟨List.replicate 101 'a'⟩ : String))) 8) ∧
    "_" ++ pySlice (H0 (jsonQuote (⟨List.replicate 101 'a'⟩ : String))) 8 ≠
      pySlice (H0 (jsonQuote (⟨List.replicate 101 'a'⟩ : String))) 16 := by
  constructor
  · decide
  · decide

/-- C5 as amended: the length-triggered replacement is not uniform. A
collection argument or collection keyword value whose canonical JSON
exceeds the class constant `MAX_VALUE_LENGTH` (100) contributes the first
16 hex characters of the digest of that JSON; a scalar argument or scalar
keyword value whose JSON text exceeds the configured maximum contributes
an underscore followed by the first 8 hex characters of its digest (as
`key=token` for keywords). In all four paths the token is a function of
the serialized text, so byte-identical oversized content always gets the
identical token. -/
theorem c5_oversize_hash_amended (H : String → String) (excl : List String) (maxLen : Nat)
    (f : Func) :
    (∀ (v : Value) (js : String), isCollection v = true →
      collection_json excl v = .ok js → js.length > MAX_VALUE_LENGTH →
      process_arg H excl maxLen f v = .ok (some (pySlice (H js) 16))) ∧
    (∀ (v : Value) (js : String), isCollection v = false → hasPk v = false →
      json_dumps v = .ok js → js.length > maxLen →
      process_arg H excl maxLen f v = .ok (some ("_" ++ pySlice (H js) 8))) ∧
    (∀ (k : String) (v : Value) (js : String), isCollection v = true →
      collection_json excl v = .ok js → js.length > MAX_VALUE_LENGTH →
      process_kwarg H excl maxLen f k v = .ok (some (k ++ "=" ++ pySlice (H js) 16))) ∧
    (∀ (k : String) (v : Value) (js : String), isCollection v = false →
      json_dumps v = .ok js → js.length > maxLen →
      process_kwarg H excl maxLen f k v =
        .ok (some (k ++ "=" ++ ("_" ++ pySlice (H js) 8)))) := by
  refine ⟨?_, ?_, ?_, ?_⟩
  · intro v js hcol hj hlen
    have hser : serialize_collection H excl v = .ok (pySlice (H js) 16) := by
      rw [serialize_collection_via_json, hj]
      simp [hlen]
    cases v <;> simp_all [isCollection, hasPk, process_arg]
  · intro v js hcol hpk hj hlen
    have hpv : process_value H maxLen (some js) = some ("_" ++ pySlice (H js) 8) := by
      simp [process_value, hlen]
    have hne : ¬(("_" ++ pySlice (H js) 8) = "") := by
      intro hc
      have := congrArg String.data hc
      simp [String.data_append] at this
    cases v <;> simp_all [isCollection, hasPk, process_arg]
  · intro k v js hcol hj hlen
    have hser : serialize_collection H excl v = .ok (pySlice (H js) 16) := by
      rw [serialize_collection_via_json, hj]
      simp [hlen]
    unfold process_kwarg
    rw [if_pos hcol, hser]
  · intro k v js hcol hj hlen
    have hpv : process_value H maxLen (some js) = some ("_" ++ pySlice (H js) 8) := by
      simp [process_value, hlen]
    have hne : ¬(("_" ++ pySlice (H js) 8) = "") := by
      intro hc
      have := congrArg String.data hc
      simp [String.data_append] at this
    simp [process_kwarg, hcol, hj, hpv, hne]

set_option maxRecDepth 4000 in
/-- Witness for the amended C5: a 40-element list gets the 16-character
digest prefix of its JSON text, a 101-character string an underscore and
the 8-character digest prefix — both as a positional argument and as the
value of keyword `b`. -/
theorem c5_oversize_hash_amended_witness :
    process_arg H0 kg0.exclude_types kg0.max_value_length f0
        (Value.vList (List.replicate 40 (Value.vInt 123))) =
      .ok (some (pySlice (H0 ((collection_json kg0.exclude_types
        (Value.vList (List.replicate 40 (Value.vInt 123)))).toOption.getD "")) 16)) ∧
    process_arg H0 kg0.exclude_types kg0.max_value_length f0
        (Value.vStr (⟨List.replicate 101 'a'⟩ : String)) =
      .ok (some ("_" ++ pySlice (H0 (jsonQuote (⟨List.replicate 101 'a'⟩ : String))) 8)) ∧
    process_kwarg H0 kg0.exclude_types kg0.max_value_length f0 "b"
        (Value.vList (List.replicate 40 (Value.vInt 123))) =
      .ok (some ("b" ++ "=" ++ pySlice (H0 ((collection_json kg0.exclude_types
        (Value.vList (List.replicate 40 (Value.vInt 123)))).toOption.getD "")) 16)) ∧
    process_kwarg H0 kg0.exclude_types kg0.max_value_length f0 "b"
        (Value.vStr (⟨List.replicate 101 'a'⟩ : String)) =
      .ok (some ("b" ++ "=" ++
        ("_" ++ pySlice (H0 (jsonQuote (⟨List.replicate 101 'a'⟩ : String))) 8))) := by
  refine ⟨?_, ?_, ?_, ?_⟩
  · exact (c5_oversize_hash_amended H0 kg0.exclude_types kg0.max_value_length f0).1
      (Value.vList (List.replicate 40 (Value.vInt 123)))
      ((collection_json kg0.exclude_types
        (Value.vList (List.replicate 40 (Value.vInt 123)))).toOption.getD "")
      rfl (by decide) (by decide)
  · exact (c5_oversize_hash_amended H0 kg0.exclude_types kg0.max_value_length f0).2.1
      (Value.vStr (⟨List.replicate 101 'a'⟩ : String))
      (jsonQuote (⟨List.replicate 101 'a'⟩ : String))
      rfl rfl (by decide) (by decide)
  · exact (c5_oversize_hash_amended H0 kg0.exclude_types kg0.max_value_length f0).2.2.1
      "b" (Value.vList (List.replicate 40 (Value.vInt 123)))
      ((collection_json kg0.exclude_types
        (Value.vList (List.replicate 40 (Value.vInt 123)))).toOption.getD "")
      rfl (by decide) (by decide)
  · exact (c5_oversize_hash_amended H0 kg0.exclude_types kg0.max_value_length f0).2.2.2
      "b" (Value.vStr (⟨List.replicate 101 'a'⟩ : String))
      (jsonQuote (⟨List.replicate 101 'a'⟩ : String))
      rfl (by decide) (by decide)

/-! ### C3: the self-referential dict -/

/-- On the self-referential dict, every stack budget is exhausted: the
filter loop reaches the self-reference and re-enters itself with one frame
fewer, down to zero. (Needs the configuration not to exclude `dict`
itself, which would drop the cycle.) -/
theorem filter_store_heap0_recursion (excl : List String)
    (hdict : excl.contains "dict" = false) :
    ∀ fuel, filter_dict_store excl heap0 fuel
      [("a", SVal.sInt 1), ("self", SVal.sRef 0)] = .error .recursionError
  | 0 => rfl
  | fuel + 1 => by
    have ih := filter_store_heap0_recursion excl hdict fuel
    have hd2 : ¬(("dict" : String) ∈ excl) := by simpa using hdict
    simp only [heap0] at ih
    by_cases hint : ("int" : String) ∈ excl <;>
      simp [filter_dict_store, filter_entries_store, typeNameS, hint, hd2, heap0, ih,
        Except.map]

/-- Counterexample to C3 as stated: at CPython's default recursion limit
of 1000 frames, `generate_key` on the dict `d = {"a": 1}; d["self"] = d`
raises `RecursionError` - an error that is NOT of the uncachable-argument
class (the `except (TypeError, ValueError)` in `_simple_params` does not
catch it, so it propagates unwrapped). -/
theorem c3_circular_dict_counterexample :
    generate_key_store H0 kg0 f0 heap0 1000 0 none = .error .recursionError ∧
    isUncachableErr PyErr.recursionError = false := by
  constructor
  · have h := filter_store_heap0_recursion kg0.exclude_types rfl 1000
    simp only [heap0] at h
    simp [generate_key_store, serialize_collection_store, heap0, h, catchSerErr]
  · rfl

/-- C3 as amended: on a self-referential dict argument, `generate_key`
neither returns nor raises an uncachable-argument error for ANY stack
budget: the recursive exclusion filter consumes every available frame and
the interpreter raises `RecursionError`, which `_simple_params` lets
propagate. (It does not loop forever only because the interpreter bounds
the stack.) -/
theorem c3_circular_dict_amended (H : String → String) (kg : KeyGenerator) (f : Func)
    (e : Option PyDatetime) (hdict : kg.exclude_types.contains "dict" = false)
    (fuel : Nat) :
    generate_key_store H kg f heap0 fuel 0 e = .error .recursionError := by
  have h := filter_store_heap0_recursion kg.exclude_types hdict fuel
  simp only [heap0] at h
  simp [generate_key_store, serialize_collection_store, heap0, h, catchSerErr]

/-- Witness for the amended C3 at a different concrete budget. -/
theorem c3_circular_dict_amended_witness :
    generate_key_store H0 kg0 f0 heap0 500 0 none = .error .recursionError :=
  c3_circular_dict_amended H0 kg0 f0 none rfl 500

/-! ### C2: where the exclusion filter actually applies -/

/-- Counterexample to C2 as stated: a top-level positional argument whose
runtime type is in the exclusion set is NOT omitted. `datetime` is in the
default exclusion set, yet two calls differing only in a top-level
datetime argument record different parameter strings and different keys:
the top-level dispatch of `_simple_params` sends the value through
`json.dumps`/`_json_default` (isoformat), and `_filter_dict_for_cache` is
only ever applied to dicts. -/
theorem c2_exclusion_counterexample :
    ("datetime" ∈ kg0.exclude_types) ∧
    simple_params H0 kg0.exclude_types kg0.max_value_length f0
        [Value.vDatetime "2025-01-01T00:00:00.000000"] [] ≠
      simple_params H0 kg0.exclude_types kg0.max_value_length f0
        [Value.vDatetime "2025-01-02T00:00:00.000000"] [] ∧
    generate_key H0 kg0 f0 [Value.vDatetime "2025-01-01T00:00:00.000000"] [] none ≠
      generate_key H0 kg0 f0 [Value.vDatetime "2025-01-02T00:00:00.000000"] [] none := by
  exact ⟨by decide, by decide, by decide⟩

theorem filter_dict_append (excl : List String) (l1 l2 : List (String × Value)) :
    filter_dict_for_cache excl (l1 ++ l2) =
      filter_dict_for_cache excl l1 ++ filter_dict_for_cache excl l2 := by
  simp [filter_dict_eq_filterMap, List.filterMap_append]

theorem filter_list_append (excl : List String) (l1 l2 : List Value) :
    filter_list_items excl (l1 ++ l2) =
      filter_list_items excl l1 ++ filter_list_items excl l2 := by
  simp [filter_list_eq_filterMap, List.filterMap_append]

/-- Two excluded values sitting at the same dict-reachable position are
indistinguishable to `_filter_dict_for_cache`: at the hole itself the
entry (or list element) is dropped, and on the way down only dicts and
dict-list values are traversed. -/
theorem filter_fill_excluded (excl : List String) :
    ∀ (c : EntryCtx) {u v : Value}, should_exclude_value excl u = true →
      should_exclude_value excl v = true →
      filter_dict_for_cache excl (c.fill u) = filter_dict_for_cache excl (c.fill v)
  | .here pre k post, u, v, hu, hv => by
    simp only [EntryCtx.fill, filter_dict_append]
    simp [filter_dict_for_cache, hu, hv]
  | .deeper pre k c post, u, v, hu, hv => by
    have ih := filter_fill_excluded excl c hu hv
    simp only [EntryCtx.fill, filter_dict_append]
    by_cases hd : should_exclude_value excl (Value.vDict (c.fill u)) = true
    · have hd2 : should_exclude_value excl (Value.vDict (c.fill v)) = true := hd
      simp [filter_dict_for_cache, hd, hd2]
    · have hd2 : ¬(should_exclude_value excl (Value.vDict (c.fill v)) = true) := hd
      simp [filter_dict_for_cache, hd, hd2, filter_entry_value, ih]
  | .inListElem pre k lpre lpost post, u, v, hu, hv => by
    simp only [EntryCtx.fill, filter_dict_append]
    by_cases hl : should_exclude_value excl (Value.vList (lpre ++ u :: lpost)) = true
    · have hl2 : should_exclude_value excl (Value.vList (lpre ++ v :: lpost)) = true := hl
      simp [filter_dict_for_cache, hl, hl2]
    · have hl2 : ¬(should_exclude_value excl (Value.vList (lpre ++ v :: lpost)) = true) := hl
      simp only [filter_dict_for_cache, hl, hl2, if_false, filter_entry_value,
        filter_list_append, reduceIte]
      simp [filter_list_items, hu, hv]
  | .inListDict pre k lpre c lpost post, u, v, hu, hv => by
    have ih := filter_fill_excluded excl c hu hv
    simp only [EntryCtx.fill, filter_dict_append]
    by_cases hl : should_exclude_value excl
        (Value.vList (lpre ++ Value.vDict (c.fill u) :: lpost)) = true
    · have hl2 : should_exclude_value excl
          (Value.vList (lpre ++ Value.vDict (c.fill v) :: lpost)) = true := hl
      simp [filter_dict_for_cache, hl, hl2]
    · have hl2 : ¬(should_exclude_value excl
          (Value.vList (lpre ++ Value.vDict (c.fill v) :: lpost)) = true) := hl
      simp only [filter_dict_for_cache, hl, hl2, if_false, filter_entry_value,
        filter_list_append, reduceIte]
      by_cases hd : should_exclude_value excl (Value.vDict (c.fill u)) = true
      · have hd2 : should_exclude_value excl (Value.vDict (c.fill v)) = true := hd
        simp [filter_list_items, hd, hd2]
      · have hd2 : ¬(should_exclude_value excl (Value.vDict (c.fill v)) = true) := hd
        simp [filter_list_items, hd, hd2, filter_item, ih]

/-- The serialization of a dict argument cannot see which of two excluded
values sat at a dict-reachable position. -/
theorem serialize_collection_fill_excluded (H : String → String) (excl : List String)
    (c : EntryCtx) {u v : Value} (hu : should_exclude_value excl u = true)
    (hv : should_exclude_value excl v = true) :
    serialize_collection H excl (.vDict (c.fill u)) =
      serialize_collection H excl (.vDict (c.fill v)) := by
  unfold serialize_collection
  dsimp only
  rw [filter_fill_excluded excl c hu hv]

/-- Equal collection serializations give equal keyword tokens. -/
theorem process_kwarg_dict_congr {H : String → String} {excl : List String} {maxLen : Nat}
    {f : Func} {key : String} {d1 d2 : List (String × Value)}
    (h : serialize_collection H excl (.vDict d1) = serialize_collection H excl (.vDict d2)) :
    process_kwarg H excl maxLen f key (.vDict d1) =
      process_kwarg H excl maxLen f key (.vDict d2) := by
  unfold process_kwarg
  dsimp only [isCollection, typeName]
  rw [if_pos rfl, if_pos rfl, h]

/-- Replacing one keyword value by one with the same token stream leaves
the keyword loop unchanged. -/
theorem process_kwargs_congr_one (H : String → String) (excl : List String) (maxLen : Nat)
    (f : Func) (kpre kpost : List (String × Value)) (key : String) {v1 v2 : Value}
    (h : process_kwarg H excl maxLen f key v1 = process_kwarg H excl maxLen f key v2) :
    process_kwargs H excl maxLen f (kpre ++ (key, v1) :: kpost) =
      process_kwargs H excl maxLen f (kpre ++ (key, v2) :: kpost) := by
  induction kpre with
  | nil =>
    simp only [List.nil_append, process_kwargs]
    by_cases hres : key ∈ reservedKwNames
    · simp [hres]
    · have hres2 : ¬(reservedKwNames.contains key = true) := by simpa using hres
      rw [if_neg hres2, if_neg hres2, h]
  | cons kv rest ih =>
    obtain ⟨k0, w⟩ := kv
    simp only [List.cons_append, process_kwargs, List.append_eq]
    rw [ih]

/-- C2 as amended: auto-exclusion by runtime type applies to the positions
`_filter_dict_for_cache` reaches inside a dict argument or dict keyword
value - an entry value at any dict-nesting depth, an element of a
list-valued entry, or inside a dict element of such a list. Two calls
differing only in excluded values at such a position get identical keys.
(By the counterexample, this does NOT extend to top-level positional
arguments, to elements of top-level sequences, or to lists nested inside
lists, which the spec's claim asserted.) -/
theorem c2_exclusion_in_dicts_amended (H : String → String) (kg : KeyGenerator) (f : Func)
    (e : Option PyDatetime) (c : EntryCtx) {u v : Value}
    (hu : should_exclude_value kg.exclude_types u = true)
    (hv : should_exclude_value kg.exclude_types v = true) :
    (∀ pre post kwargs,
      generate_key H kg f (pre ++ Value.vDict (c.fill u) :: post) kwargs e =
        generate_key H kg f (pre ++ Value.vDict (c.fill v) :: post) kwargs e) ∧
    (∀ args key kpre kpost,
      generate_key H kg f args (kpre ++ (key, Value.vDict (c.fill u)) :: kpost) e =
        generate_key H kg f args (kpre ++ (key, Value.vDict (c.fill v)) :: kpost) e) := by
  have hser := serialize_collection_fill_excluded H kg.exclude_types c hu hv
  constructor
  · intro pre post kwargs
    exact generate_key_congr_params
      (simple_params_congr_one H kg.exclude_types kg.max_value_length f pre post kwargs
        (process_arg_dict_congr hser))
  · intro args key kpre kpost
    have hkw := process_kwargs_congr_one H kg.exclude_types kg.max_value_length f kpre kpost
      key (process_kwarg_dict_congr hser)
    have hsp : simple_params H kg.exclude_types kg.max_value_length f args
        (kpre ++ (key, Value.vDict (c.fill u)) :: kpost) =
        simple_params H kg.exclude_types kg.max_value_length f args
          (kpre ++ (key, Value.vDict (c.fill v)) :: kpost) := by
      unfold simple_params
      rw [hkw]
    unfold generate_key
    rw [hsp]

/-- Witness for the amended C2: two different datetimes nested two dicts
deep produce the identical key. -/
theorem c2_exclusion_in_dicts_amended_witness :
    generate_key H0 kg0 f0
        [Value.vDict ((EntryCtx.deeper [] "meta" (EntryCtx.here [("name", Value.vStr "x")]
          "created" []) [("id", Value.vInt 1)]).fill
            (Value.vDatetime "2025-01-01T00:00:00.000000"))] [] none =
      generate_key H0 kg0 f0
        [Value.vDict ((EntryCtx.deeper [] "meta" (EntryCtx.here [("name", Value.vStr "x")]
          "created" []) [("id", Value.vInt 1)]).fill
            (Value.vDatetime "2025-01-02T00:00:00.000000"))] [] none :=
  (c2_exclusion_in_dicts_amended H0 kg0 f0 none
      (EntryCtx.deeper [] "meta" (EntryCtx.here [("name", Value.vStr "x")] "created" [])
        [("id", Value.vInt 1)])
      (by decide) (by decide)).1 [] [] []

/-! ### C9: what the uncachable-argument messages carry -/

/-- Counterexample to C9 as stated: the message of an
uncachable-argument error for a positional argument does not carry the
argument's position. The same failing value at position 0 and at position
1 of two calls produces the very same message (the `for i, arg in
enumerate(...)` index is never interpolated into the f-strings), so the
message cannot name the position. -/
theorem c9_position_counterexample :
    simple_params H0 kg0.exclude_types kg0.max_value_length f0
        [Value.vInt 1, Value.vUnserializable "Weird"] [] =
      .error (.uncachableArgumentError
        (argScalarMsg "Weird" f0.qualname (unserializableMsg "Weird"))) ∧
    simple_params H0 kg0.exclude_types kg0.max_value_length f0
        [Value.vUnserializable "Weird", Value.vInt 1] [] =
      .error (.uncachableArgumentError
        (argScalarMsg "Weird" f0.qualname (unserializableMsg "Weird"))) := by
  exact ⟨by decide, by decide⟩

theorem seqExcept_error_mem {α : Type} :
    ∀ (L : List (Except PyErr α)) {e : PyErr}, seqExcept L = .error e → Except.error e ∈ L
  | [], _, h => by simp [seqExcept] at h
  | x :: rest, e, h => by
    cases hx : x with
    | error e2 =>
      rw [hx] at h
      simp only [seqExcept] at h
      cases h
      exact List.mem_cons_self _ _
    | ok a =>
      rw [hx] at h
      simp only [seqExcept] at h
      cases hr : seqExcept rest with
      | error e2 =>
        rw [hr] at h
        simp only [Except.map] at h
        cases h
        exact List.mem_cons_of_mem _ (seqExcept_error_mem rest hr)
      | ok l => rw [hr] at h; simp [Except.map] at h

mutual

/-- `str()` in the model only ever raises `TypeError` (from the raising
`__str__` of an unserializable object). -/
theorem pyStr_err : ∀ (v : Value) {e : PyErr}, pyStr v = .error e → ∃ m, e = PyErr.typeError m
  | .vNone, _, h => by simp [pyStr] at h
  | .vBool _, _, h => by simp [pyStr] at h
  | .vInt _, _, h => by simp [pyStr] at h
  | .vStr _, _, h => by simp [pyStr] at h
  | .vDatetime _, _, h => by simp [pyStr] at h
  | .vEnum _ _, _, h => by simp [pyStr] at h
  | .vObjPk _ _ _, _, h => by simp [pyStr] at h
  | .vOpaque _ _, _, h => by simp [pyStr] at h
  | .vUnserializable t, e, h => by
    simp only [pyStr] at h
    cases h
    exact ⟨_, rfl⟩
  | .vDict entries, e, h => by
    simp only [pyStr] at h
    cases hs : seqExcept (pyStrEntries entries) with
    | error e2 =>
      rw [hs] at h
      cases h
      exact pyStrEntries_err entries (seqExcept_error_mem _ hs)
    | ok parts => rw [hs] at h; cases h
  | .vList elems, e, h => by
    simp only [pyStr] at h
    cases hs : seqExcept (pyStrElems elems) with
    | error e2 =>
      rw [hs] at h
      cases h
      exact pyStrElems_err elems (seqExcept_error_mem _ hs)
    | ok parts => rw [hs] at h; cases h
  | .vTuple elems, e, h => by
    simp only [pyStr] at h
    cases hs : seqExcept (pyStrElems elems) with
    | error e2 =>
      rw [hs] at h
      cases h
      exact pyStrElems_err elems (seqExcept_error_mem _ hs)
    | ok parts =>
      rw [hs] at h
      cases parts with
      | nil => cases h
      | cons p ps => cases ps <;> cases h
  | .vSet elems, e, h => by
    simp only [pyStr] at h
    cases hs : seqExcept (pyStrElems elems) with
    | error e2 =>
      rw [hs] at h
      cases h
      exact pyStrElems_err elems (seqExcept_error_mem _ hs)
    | ok parts =>
      rw [hs] at h
      cases parts <;> cases h
  | .vFrozenset elems, e, h => by
    simp only [pyStr] at h
    cases hs : seqExcept (pyStrElems elems) with
    | error e2 =>
      rw [hs] at h
      cases h
      exact pyStrElems_err elems (seqExcept_error_mem _ hs)
    | ok parts =>
      rw [hs] at h
      cases parts <;> cases h

theorem pyStrEntries_err :
    ∀ (l : List (String × Value)) {e : PyErr},
      Except.error e ∈ pyStrEntries l → ∃ m, e = PyErr.typeError m
  | [], _, h => by simp [pyStrEntries] at h
  | (k, v) :: rest, e, h => by
    simp only [pyStrEntries, List.mem_cons] at h
    rcases h with h | h
    · cases hv : pyStr v with
      | error e2 =>
        rw [hv] at h
        simp only [Except.map] at h
        cases h
        exact pyStr_err v hv
      | ok s => rw [hv] at h; simp [Except.map] at h
    · exact pyStrEntries_err rest h

theorem pyStrElems_err :
    ∀ (l : List Value) {e : PyErr},
      Except.error e ∈ pyStrElems l → ∃ m, e = PyErr.typeError m
  | [], _, h => by simp [pyStrElems] at h
  | v :: rest, e, h => by
    simp only [pyStrElems, List.mem_cons] at h
    rcases h with h | h
    · exact pyStr_err v h.symm
    · exact pyStrElems_err rest h

end

/-- `jd_entries` is the entry-wise serialization map. -/
theorem jd_entries_eq_map :
    ∀ l : List (String × Value), jd_entries l = l.map (fun kv => (kv.1, json_dumps kv.2))
  | [] => rfl
  | (k, v) :: rest => by simp [jd_entries, jd_entries_eq_map rest]

/-- `jd_elems` is the element-wise serialization map. -/
theorem jd_elems_eq_map : ∀ l : List Value, jd_elems l = l.map json_dumps
  | [] => rfl
  | v :: rest => by simp [jd_elems, jd_elems_eq_map rest]

mutual

/-- `json.dumps` in the model only ever raises `TypeError`. -/
theorem json_dumps_err :
    ∀ (v : Value) {e : PyErr}, json_dumps v = .error e → ∃ m, e = PyErr.typeError m
  | .vNone, _, h => by simp [json_dumps] at h
  | .vBool _, _, h => by simp [json_dumps] at h
  | .vInt _, _, h => by simp [json_dumps] at h
  | .vStr _, _, h => by simp [json_dumps] at h
  | .vDatetime _, _, h => by simp [json_dumps] at h
  | .vEnum _ _, _, h => by simp [json_dumps] at h
  | .vObjPk _ _ _, _, h => by simp [json_dumps] at h
  | .vOpaque _ _, _, h => by simp [json_dumps] at h
  | .vUnserializable t, e, h => by
    simp only [json_dumps] at h
    cases h
    exact ⟨_, rfl⟩
  | .vDict entries, e, h => by
    simp only [json_dumps, renderObjPairs] at h
    cases hs : seqExcept ((List.insertionSort entryLe (jd_entries entries)).map
        (fun kv => kv.2.map (fun s => jsonQuote kv.1 ++ ":" ++ s))) with
    | error e2 =>
      rw [hs] at h
      cases h
      have hmem := seqExcept_error_mem _ hs
      obtain ⟨kv, hkv, hfe⟩ := List.mem_map.mp hmem
      have hkv2 : kv ∈ jd_entries entries :=
        (List.perm_insertionSort entryLe (jd_entries entries)).mem_iff.mp hkv
      have hkverr : kv.2 = Except.error e := by
        cases h2 : kv.2 with
        | error e3 =>
          rw [h2] at hfe
          simp only [Except.map] at hfe
          cases hfe
          rfl
        | ok s => rw [h2] at hfe; simp [Except.map] at hfe
      exact jd_entries_err entries kv.1 (by rw [← hkverr]; exact hkv2)
    | ok parts => rw [hs] at h; cases h
  | .vList elems, e, h => by
    simp only [json_dumps, renderArr] at h
    cases hs : seqExcept (jd_elems elems) with
    | error e2 =>
      rw [hs] at h
      cases h
      exact jd_elems_err elems (seqExcept_error_mem _ hs)
    | ok parts => rw [hs] at h; cases h
  | .vTuple elems, e, h => by
    simp only [json_dumps, renderArr] at h
    cases hs : seqExcept (jd_elems elems) with
    | error e2 =>
      rw [hs] at h
      cases h
      exact jd_elems_err elems (seqExcept_error_mem _ hs)
    | ok parts => rw [hs] at h; cases h
  | .vSet elems, e, h => by
    simp only [json_dumps] at h
    cases hp : pyStr (Value.vSet elems) with
    | error e2 =>
      rw [hp] at h
      simp only [Except.map] at h
      cases h
      exact pyStr_err _ hp
    | ok s => rw [hp] at h; simp [Except.map] at h
  | .vFrozenset elems, e, h => by
    simp only [json_dumps] at h
    cases hs : seqExcept (elems.map strKeyOf) with
    | error e2 =>
      rw [hs] at h
      cases h
      have hmem := seqExcept_error_mem _ hs
      obtain ⟨v, hv, hfe⟩ := List.mem_map.mp hmem
      have hperr : pyStr v = .error e := by
        unfold strKeyOf at hfe
        cases h2 : pyStr v with
        | error e3 =>
          rw [h2] at hfe
          simp only [Except.map] at hfe
          cases hfe
          rfl
        | ok s => rw [h2] at hfe; simp [Except.map] at hfe
      exact pyStr_err v hperr
    | ok keys =>
      rw [hs] at h
      simp only [renderSortedSet, renderArr] at h
      cases hs2 : seqExcept ((List.insertionSort elemKeyLe (keys.zip (jd_elems elems))).map
          (fun p => p.2)) with
      | error e2 =>
        rw [hs2] at h
        cases h
        have hmem := seqExcept_error_mem _ hs2
        obtain ⟨p, hp, hfe⟩ := List.mem_map.mp hmem
        have hp2 : p ∈ keys.zip (jd_elems elems) :=
          (List.perm_insertionSort elemKeyLe _).mem_iff.mp hp
        have hp3 : p.2 ∈ jd_elems elems := by
          obtain ⟨a, b⟩ := p
          exact (List.of_mem_zip hp2).2
        rw [hfe] at hp3
        exact jd_elems_err elems hp3
      | ok parts => rw [hs2] at h; cases h

theorem jd_entries_err :
    ∀ (l : List (String × Value)) (k : String) {e : PyErr},
      (k, Except.error e) ∈ jd_entries l → ∃ m, e = PyErr.typeError m
  | [], _, _, h => by simp [jd_entries] at h
  | (k0, v) :: rest, k, e, h => by
    simp only [jd_entries, List.mem_cons] at h
    rcases h with h | h
    · have : json_dumps v = .error e := by
        have := congrArg Prod.snd h
        simp at this
        exact this.symm
      exact json_dumps_err v this
    · exact jd_entries_err rest k h

theorem jd_elems_err :
    ∀ (l : List Value) {e : PyErr},
      Except.error e ∈ jd_elems l → ∃ m, e = PyErr.typeError m
  | [], _, h => by simp [jd_elems] at h
  | v :: rest, e, h => by
    simp only [jd_elems, List.mem_cons] at h
    rcases h with h | h
    · exact json_dumps_err v h.symm
    · exact jd_elems_err rest h

end

/-- `_serialize_collection` in the model only ever raises `TypeError`. -/
theorem serialize_collection_err {H : String → String} {excl : List String} {v : Value}
    {e : PyErr} (h : serialize_collection H excl v = .error e) : ∃ m, e = PyErr.typeError m := by
  rw [serialize_collection_via_json] at h
  cases hj : collection_json excl v with
  | error e2 =>
    rw [hj] at h
    cases h
    unfold collection_json at hj
    cases hx : (match v with
        | Value.vSet es => (sortSetElems es).map Value.vList
        | Value.vFrozenset es => (sortSetElems es).map Value.vList
        | Value.vTuple es => Except.ok (Value.vList es)
        | x => Except.ok x) with
    | error e3 =>
      rw [hx] at hj
      cases hj
      have hsort : ∃ es, sortSetElems es = .error e := by
        cases v <;> simp only [] at hx
        case vSet es =>
          cases hse : sortSetElems es with
          | error e4 => rw [hse] at hx; simp only [Except.map] at hx; cases hx; exact ⟨es, hse⟩
          | ok l => rw [hse] at hx; simp [Except.map] at hx
        case vFrozenset es =>
          cases hse : sortSetElems es with
          | error e4 => rw [hse] at hx; simp only [Except.map] at hx; cases hx; exact ⟨es, hse⟩
          | ok l => rw [hse] at hx; simp [Except.map] at hx
        all_goals cases hx
      obtain ⟨es, hse⟩ := hsort
      unfold sortSetElems at hse
      cases hsq : seqExcept (es.map (fun v => (strKeyOf v).map (fun k => (k, v)))) with
      | error e4 =>
        rw [hsq] at hse
        cases hse
        have hmem := seqExcept_error_mem _ hsq
        obtain ⟨w, hw, hfe⟩ := List.mem_map.mp hmem
        have hperr : pyStr w = .error e := by
          unfold strKeyOf at hfe
          cases h2 : pyStr w with
          | error e5 =>
            rw [h2] at hfe
            simp only [Except.map] at hfe
            cases hfe
            rfl
          | ok s => rw [h2] at hfe; simp [Except.map] at hfe
        exact pyStr_err w hperr
      | ok keyed => rw [hsq] at hse; cases hse
    | ok obj =>
      rw [hx] at hj
      exact json_dumps_err _ hj
  | ok js => rw [hj] at h; exact Except.noConfusion h

/-- The positional collection message contains the argument's type name
and the function's qualified name. -/
theorem argCollectionMsg_contains (t q e : String) :
    strContains (argCollectionMsg t q e) t ∧ strContains (argCollectionMsg t q e) q :=
  ⟨⟨"Argument of type '",
    "' for function '" ++ q ++ "' contains non-serializable objects: " ++ e,
    by simp [argCollectionMsg, String.append_assoc]⟩,
   ⟨"Argument of type '" ++ t ++ "' for function '",
    "' contains non-serializable objects: " ++ e,
    by simp [argCollectionMsg, String.append_assoc]⟩⟩

/-- The positional scalar message contains the argument's type name and
the function's qualified name. -/
theorem argScalarMsg_contains (t q e : String) :
    strContains (argScalarMsg t q e) t ∧ strContains (argScalarMsg t q e) q :=
  ⟨⟨"Argument of type '",
    "' for function '" ++ q ++ "' is not automatically cachable: " ++ e,
    by simp [argScalarMsg, String.append_assoc]⟩,
   ⟨"Argument of type '" ++ t ++ "' for function '",
    "' is not automatically cachable: " ++ e,
    by simp [argScalarMsg, String.append_assoc]⟩⟩

/-- The keyword collection message contains the keyword name, the value's
type name and the function's qualified name. -/
theorem kwCollectionMsg_contains (k t q e : String) :
    strContains (kwCollectionMsg k t q e) k ∧ strContains (kwCollectionMsg k t q e) t ∧
      strContains (kwCollectionMsg k t q e) q :=
  ⟨⟨"Keyword argument '",
    "' of type '" ++ t ++ "' for function '" ++ q ++
      "' contains non-serializable objects: " ++ e,
    by simp [kwCollectionMsg, String.append_assoc]⟩,
   ⟨"Keyword argument '" ++ k ++ "' of type '",
    "' for function '" ++ q ++ "' contains non-serializable objects: " ++ e,
    by simp [kwCollectionMsg, String.append_assoc]⟩,
   ⟨"Keyword argument '" ++ k ++ "' of type '" ++ t ++ "' for function '",
    "' contains non-serializable objects: " ++ e,
    by simp [kwCollectionMsg, String.append_assoc]⟩⟩

/-- The keyword scalar message contains the keyword name, the value's type
name and the function's qualified name. -/
theorem kwScalarMsg_contains (k t q e : String) :
    strContains (kwScalarMsg k t q e) k ∧ strContains (kwScalarMsg k t q e) t ∧
      strContains (kwScalarMsg k t q e) q :=
  ⟨⟨"Keyword argument '",
    "' of type '" ++ t ++ "' for function '" ++ q ++ "' is not automatically cachable: " ++ e,
    by simp [kwScalarMsg, String.append_assoc]⟩,
   ⟨"Keyword argument '" ++ k ++ "' of type '",
    "' for function '" ++ q ++ "' is not automatically cachable: " ++ e,
    by simp [kwScalarMsg, String.append_assoc]⟩,
   ⟨"Keyword argument '" ++ k ++ "' of type '" ++ t ++ "' for function '",
    "' is not automatically cachable: " ++ e,
    by simp [kwScalarMsg, String.append_assoc]⟩⟩

/-- On arguments without a `pk` attribute, `process_arg` is the
collection/scalar dispatch (the default branch of its match). -/
theorem process_arg_eq (H : String → String) (excl : List String) (maxLen : Nat) (f : Func)
    (arg : Value) (hpk : hasPk arg = false) :
    process_arg H excl maxLen f arg =
      (if isCollection arg then
        match serialize_collection H excl arg with
        | .ok s => .ok (some s)
        | .error e => .error (catchSerErr (argCollectionMsg (typeName arg) f.qualname) e)
      else
        match json_dumps arg with
        | .ok s =>
          .ok (match process_value H maxLen (some s) with
               | some t => if t = "" then none else some t
               | none => none)
        | .error e => .error (catchSerErr (argScalarMsg (typeName arg) f.qualname) e)) := by
  cases arg <;> first | rfl | simp [hasPk] at hpk

/-- Any uncachable-argument error raised while processing one positional
argument mentions the argument's runtime type name and the function's
qualified name in its message. -/
theorem process_arg_err {H : String → String} {excl : List String} {maxLen : Nat}
    {f : Func} {arg : Value} {m : String}
    (h : process_arg H excl maxLen f arg = .error (.uncachableArgumentError m)) :
    strContains m (typeName arg) ∧ strContains m f.qualname := by
  cases hpk : hasPk arg with
  | true =>
    cases arg <;> simp [hasPk] at hpk
    simp [process_arg] at h
  | false =>
    rw [process_arg_eq H excl maxLen f arg hpk] at h
    by_cases hc : isCollection arg = true
    · rw [if_pos hc] at h
      cases hs : serialize_collection H excl arg with
      | ok s => rw [hs] at h; exact Except.noConfusion h
      | error e =>
        rw [hs] at h
        obtain ⟨msg, rfl⟩ := serialize_collection_err hs
        simp only [catchSerErr] at h
        injection h with h2
        injection h2 with h3
        rw [← h3]
        exact argCollectionMsg_contains (typeName arg) f.qualname msg
    · rw [if_neg hc] at h
      cases hs : json_dumps arg with
      | ok s => rw [hs] at h; exact Except.noConfusion h
      | error e =>
        rw [hs] at h
        obtain ⟨msg, rfl⟩ := json_dumps_err arg hs
        simp only [catchSerErr] at h
        injection h with h2
        injection h2 with h3
        rw [← h3]
        exact argScalarMsg_contains (typeName arg) f.qualname msg

/-- Any uncachable-argument error raised while processing one keyword
argument mentions the keyword's name, the value's runtime type name and
the function's qualified name in its message. -/
theorem process_kwarg_err {H : String → String} {excl : List String} {maxLen : Nat}
    {f : Func} {k : String} {v : Value} {m : String}
    (h : process_kwarg H excl maxLen f k v = .error (.uncachableArgumentError m)) :
    strContains m k ∧ strContains m (typeName v) ∧ strContains m f.qualname := by
  unfold process_kwarg at h
  by_cases hc : isCollection v = true
  · rw [if_pos hc] at h
    cases hs : serialize_collection H excl v with
    | ok s => rw [hs] at h; exact Except.noConfusion h
    | error e =>
      rw [hs] at h
      obtain ⟨msg, rfl⟩ := serialize_collection_err hs
      simp only [catchSerErr] at h
      injection h with h2
      injection h2 with h3
      rw [← h3]
      exact kwCollectionMsg_contains k (typeName v) f.qualname msg
  · rw [if_neg hc] at h
    cases hs : json_dumps v with
    | ok s => rw [hs] at h; exact Except.noConfusion h
    | error e =>
      rw [hs] at h
      obtain ⟨msg, rfl⟩ := json_dumps_err v hs
      simp only [catchSerErr] at h
      injection h with h2
      injection h2 with h3
      rw [← h3]
      exact kwScalarMsg_contains k (typeName v) f.qualname msg

/-- Lifting `process_arg_err` through the positional loop: the error comes
from some positional argument in the list. -/
theorem process_args_err {H : String → String} {excl : List String} {maxLen : Nat} {f : Func} :
    ∀ {args : List Value} {m : String},
      process_args H excl maxLen f args = .error (.uncachableArgumentError m) →
      ∃ a ∈ args, strContains m (typeName a) ∧ strContains m f.qualname
  | [], _, h => by simp [process_args] at h
  | a :: rest, m, h => by
    simp only [process_args] at h
    cases ha : process_arg H excl maxLen f a with
    | error e =>
      rw [ha] at h
      injection h with h2
      subst h2
      exact ⟨a, List.mem_cons_self a rest, process_arg_err ha⟩
    | ok tok =>
      rw [ha] at h
      cases hr : process_args H excl maxLen f rest with
      | error e =>
        rw [hr] at h
        simp only [Except.map] at h
        injection h with h2
        subst h2
        obtain ⟨b, hb, hc⟩ := process_args_err hr
        exact ⟨b, List.mem_cons_of_mem a hb, hc⟩
      | ok ts => rw [hr] at h; simp [Except.map] at h

/-- Lifting `process_kwarg_err` through the keyword loop: the error comes
from some non-reserved keyword in the mapping. -/
theorem process_kwargs_err {H : String → String} {excl : List String} {maxLen : Nat} {f : Func} :
    ∀ {kwargs : List (String × Value)} {m : String},
      process_kwargs H excl maxLen f kwargs = .error (.uncachableArgumentError m) →
      ∃ kv ∈ kwargs, strContains m kv.1 ∧ strContains m (typeName kv.2) ∧
        strContains m f.qualname
  | [], _, h => by simp [process_kwargs] at h
  | (k, v) :: rest, m, h => by
    simp only [process_kwargs] at h
    by_cases hres : reservedKwNames.contains k = true
    · rw [if_pos hres] at h
      obtain ⟨kv, hkv, hc⟩ := process_kwargs_err h
      exact ⟨kv, List.mem_cons_of_mem _ hkv, hc⟩
    · rw [if_neg hres] at h
      cases ha : process_kwarg H excl maxLen f k v with
      | error e =>
        rw [ha] at h
        injection h with h2
        subst h2
        exact ⟨(k, v), List.mem_cons_self _ rest, process_kwarg_err ha⟩
      | ok tok =>
        rw [ha] at h
        cases hr : process_kwargs H excl maxLen f rest with
        | error e =>
          rw [hr] at h
          simp only [Except.map] at h
          injection h with h2
          subst h2
          obtain ⟨kv, hkv, hc⟩ := process_kwargs_err hr
          exact ⟨kv, List.mem_cons_of_mem _ hkv, hc⟩
        | ok ts => rw [hr] at h; simp [Except.map] at h

/-- C9: corrected. Not every uncachable-argument error names the offending
argument's position — positional-argument messages carry no index (see the
positional counterexample: the same bad value at position 0 and at
position 1 produces the byte-identical message). What every such error
message does carry: the target function's qualified name, and either the
runtime type name of some positional argument of the call (positional
case) or the name and runtime type name of some keyword argument
(keyword case). -/
theorem c9_error_contents_amended {H : String → String} {kg : KeyGenerator} {f : Func}
    {args : List Value} {kwargs : List (String × Value)} {exp : Option PyDatetime} {m : String}
    (h : generate_key H kg f args kwargs exp = .error (.uncachableArgumentError m)) :
    strContains m f.qualname ∧
      ((∃ a ∈ args, strContains m (typeName a)) ∨
       (∃ kv ∈ kwargs, strContains m kv.1 ∧ strContains m (typeName kv.2))) := by
  unfold generate_key at h
  cases hs : simple_params H kg.exclude_types kg.max_value_length f args kwargs with
  | ok params => rw [hs] at h; exact Except.noConfusion h
  | error e =>
    rw [hs] at h
    injection h with h2
    subst h2
    simp only [simple_params] at hs
    cases hp : process_args H kg.exclude_types kg.max_value_length f
        (if f.firstParamIsSelf && !args.isEmpty then args.tail else args) with
    | error e2 =>
      rw [hp] at hs
      injection hs with h3
      subst h3
      obtain ⟨a, ha, hc1, hc2⟩ := process_args_err hp
      have ha2 : a ∈ args := by
        by_cases hself : (f.firstParamIsSelf && !args.isEmpty) = true
        · rw [if_pos hself] at ha; exact List.mem_of_mem_tail ha
        · rw [if_neg hself] at ha; exact ha
      exact ⟨hc2, Or.inl ⟨a, ha2, hc1⟩⟩
    | ok ts1 =>
      rw [hp] at hs
      cases hk : process_kwargs H kg.exclude_types kg.max_value_length f kwargs with
      | error e2 =>
        rw [hk] at hs
        injection hs with h3
        subst h3
        obtain ⟨kv, hkv, hc1, hc2, hc3⟩ := process_kwargs_err hk
        exact ⟨hc3, Or.inr ⟨kv, hkv, hc1, hc2⟩⟩
      | ok ts2 => rw [hk] at hs; exact Except.noConfusion hs

set_option maxRecDepth 4000 in
theorem c9_error_contents_amended_witness :
    strContains (argScalarMsg "Weird" "get_data" (unserializableMsg "Weird")) f0.qualname ∧
      ((∃ a ∈ [Value.vUnserializable "Weird"],
          strContains (argScalarMsg "Weird" "get_data" (unserializableMsg "Weird"))
            (typeName a)) ∨
       (∃ kv ∈ ([] : List (String × Value)),
          strContains (argScalarMsg "Weird" "get_data" (unserializableMsg "Weird")) kv.1 ∧
          strContains (argScalarMsg "Weird" "get_data" (unserializableMsg "Weird"))
            (typeName kv.2))) :=
  @c9_error_contents_amended H0 kg0 f0 [Value.vUnserializable "Weird"] [] none
    (argScalarMsg "Weird" "get_data" (unserializableMsg "Weird")) (by decide)

/-- Sequencing elementwise-successful serializations collects the results. -/
theorem seqExcept_map_ok {α β : Type} (f : α → Except PyErr β) (g : α → β) :
    ∀ l : List α, (∀ a ∈ l, f a = .ok (g a)) → seqExcept (l.map f) = .ok (l.map g)
  | [], _ => rfl
  | a :: rest, h => by
    simp only [List.map_cons, seqExcept, h a (List.mem_cons_self a rest),
      seqExcept_map_ok f g rest (fun b hb => h b (List.mem_cons_of_mem a hb)), Except.map]

/-- On a well-behaved set element `str` succeeds and the computed sort key
is `(type name, string form)`. -/
theorem setElem_strKeyOf {v : Value} (h : setElemOk v = true) :
    strKeyOf v = .ok (sortKeyOf v) := by
  cases v <;> simp_all [setElemOk, strKeyOf, sortKeyOf, pyStrOk, pyStr, typeName, Except.map]

/-- The JSON serialization of a well-behaved set element is determined by
its `(type name, str)` sort key. -/
theorem setElem_json {v : Value} (h : setElemOk v = true) :
    json_dumps v = .ok (jsonOfSortKey (sortKeyOf v)) := by
  cases v with
  | vNone => decide
  | vBool b => cases b <;> decide
  | vInt n => simp [json_dumps, jsonOfSortKey, sortKeyOf, typeName, pyStrOk, pyStr]
  | vStr s => simp [json_dumps, jsonOfSortKey, sortKeyOf, typeName, pyStrOk, pyStr]
  | vDatetime iso => simp [json_dumps, jsonOfSortKey, sortKeyOf, typeName, pyStrOk, pyStr]
  | vEnum t m =>
    simp only [setElemOk, builtinTypeNames, Bool.not_eq_true'] at h
    simp only [List.contains_cons, Bool.or_eq_false_iff, beq_eq_false_iff_ne, ne_eq] at h
    obtain ⟨h1, h2, h3, _⟩ := h
    simp [json_dumps, jsonOfSortKey, sortKeyOf, typeName, pyStrOk, pyStr, h1, h2, h3]
  | vOpaque t sf =>
    simp only [setElemOk, builtinTypeNames, Bool.not_eq_true'] at h
    simp only [List.contains_cons, Bool.or_eq_false_iff, beq_eq_false_iff_ne, ne_eq] at h
    obtain ⟨h1, h2, h3, _⟩ := h
    simp [json_dumps, jsonOfSortKey, sortKeyOf, typeName, pyStrOk, pyStr, h1, h2, h3]
  | vObjPk t pk sf => simp [setElemOk] at h
  | vUnserializable t => simp [setElemOk] at h
  | vDict d => simp [setElemOk] at h
  | vList l => simp [setElemOk] at h
  | vTuple l => simp [setElemOk] at h
  | vSet l => simp [setElemOk] at h
  | vFrozenset l => simp [setElemOk] at h

/-- Two keyed lists carrying the same key multiset have the same sorted
key sequence (whatever is attached to the keys): sorting by the total
antisymmetric tuple order makes the key sequence canonical. -/
theorem sortedKeys_perm_eq {α β : Type} (l1 : List ((String × String) × α))
    (l2 : List ((String × String) × β))
    (hp : (l1.map Prod.fst).Perm (l2.map Prod.fst)) :
    (List.insertionSort elemKeyLe l1).map Prod.fst =
      (List.insertionSort elemKeyLe l2).map Prod.fst := by
  apply sorted_perm_eq_det (fun k => k) setKeyLeB (fun x y h1 h2 => setKeyLeB_antisymm h1 h2)
  · exact (((List.perm_insertionSort elemKeyLe l1).map Prod.fst).trans hp).trans
      (((List.perm_insertionSort elemKeyLe l2).map Prod.fst).symm)
  · rw [List.pairwise_map]
    exact List.sorted_insertionSort elemKeyLe l1
  · rw [List.pairwise_map]
    exact List.sorted_insertionSort elemKeyLe l2
  · exact fun a _ b _ h => h

/-- The canonical JSON text `_serialize_collection` computes for a `set`
of well-behaved elements: sort the `(sort key, element)` pairs, then emit
each element's JSON — which is a function of its key alone. -/
theorem collection_json_set_ok {excl : List String} {es : List Value}
    (hok : ∀ v ∈ es, setElemOk v = true) :
    collection_json excl (.vSet es) =
      .ok ("[" ++ pyJoin (",")
        (((List.insertionSort elemKeyLe (es.map (fun v => (sortKeyOf v, v)))).map
          Prod.fst).map jsonOfSortKey) ++ "]") := by
  have hsort : sortSetElems es =
      .ok ((List.insertionSort elemKeyLe (es.map (fun v => (sortKeyOf v, v)))).map
        (fun p => p.2)) := by
    unfold sortSetElems
    rw [seqExcept_map_ok (fun v => (strKeyOf v).map (fun k => (k, v)))
      (fun v => (sortKeyOf v, v)) es
      (fun a ha => by simp only [setElem_strKeyOf (hok a ha), Except.map])]
  simp only [collection_json, hsort, Except.map]
  have hmem : ∀ p ∈ List.insertionSort elemKeyLe (es.map (fun v => (sortKeyOf v, v))),
      json_dumps p.2 = .ok (jsonOfSortKey p.1) := by
    intro p hp
    have hp2 : p ∈ es.map (fun v => (sortKeyOf v, v)) :=
      (List.perm_insertionSort elemKeyLe _).mem_iff.mp hp
    obtain ⟨v, hv, hpv⟩ := List.mem_map.mp hp2
    subst hpv
    exact setElem_json (hok v hv)
  simp only [json_dumps, renderArr, jd_elems_eq_map, List.map_map]
  have hcongr : (List.insertionSort elemKeyLe (es.map (fun v => (sortKeyOf v, v)))).map
        (json_dumps ∘ fun p => p.2) =
      (List.insertionSort elemKeyLe (es.map (fun v => (sortKeyOf v, v)))).map
        (fun p => Except.ok (jsonOfSortKey p.1)) :=
    List.map_congr_left (fun p hp => hmem p hp)
  have hseq2 := seqExcept_map_ok
    (fun p : (String × String) × Value => Except.ok (jsonOfSortKey p.1))
    (fun p : (String × String) × Value => jsonOfSortKey p.1)
    (List.insertionSort elemKeyLe (es.map (fun v => (sortKeyOf v, v)))) (fun a ha => rfl)
  rw [hcongr, hseq2]
  rfl

/-- The canonical JSON text `json.dumps` (through `_json_default`) emits
for a `frozenset` of well-behaved elements: the same key-sorted,
key-determined array. -/
theorem json_dumps_frozenset_ok {es : List Value}
    (hok : ∀ v ∈ es, setElemOk v = true) :
    json_dumps (.vFrozenset es) =
      .ok ("[" ++ pyJoin (",")
        (((List.insertionSort elemKeyLe (es.map (fun v => (sortKeyOf v, v)))).map
          Prod.fst).map jsonOfSortKey) ++ "]") := by
  have hkeys : seqExcept (es.map strKeyOf) = .ok (es.map sortKeyOf) :=
    seqExcept_map_ok strKeyOf sortKeyOf es (fun a ha => setElem_strKeyOf (hok a ha))
  simp only [json_dumps, hkeys, renderSortedSet, jd_elems_eq_map]
  have hzip : (es.map sortKeyOf).zip (es.map json_dumps) =
      es.map (fun v => (sortKeyOf v, json_dumps v)) := by
    rw [List.zip_map']
  rw [hzip]
  have hmem : ∀ p ∈ List.insertionSort elemKeyLe
      (es.map (fun v => (sortKeyOf v, json_dumps v))),
      p.2 = Except.ok (jsonOfSortKey p.1) := by
    intro p hp
    have hp2 : p ∈ es.map (fun v => (sortKeyOf v, json_dumps v)) :=
      (List.perm_insertionSort elemKeyLe _).mem_iff.mp hp
    obtain ⟨v, hv, hpv⟩ := List.mem_map.mp hp2
    subst hpv
    exact setElem_json (hok v hv)
  simp only [renderArr]
  have hcongr : (List.insertionSort elemKeyLe
        (es.map (fun v => (sortKeyOf v, json_dumps v)))).map (fun p => p.2) =
      (List.insertionSort elemKeyLe
        (es.map (fun v => (sortKeyOf v, json_dumps v)))).map
        (fun p => Except.ok (jsonOfSortKey p.1)) :=
    List.map_congr_left (fun p hp => hmem p hp)
  have hseq2 := seqExcept_map_ok
    (fun p : (String × String) × Except PyErr String => Except.ok (jsonOfSortKey p.1))
    (fun p : (String × String) × Except PyErr String => jsonOfSortKey p.1)
    (List.insertionSort elemKeyLe (es.map (fun v => (sortKeyOf v, json_dumps v))))
    (fun a ha => rfl)
  rw [hcongr, hseq2]
  have hks := sortedKeys_perm_eq (es.map (fun v => (sortKeyOf v, json_dumps v)))
    (es.map (fun v => (sortKeyOf v, v)))
    (by rw [List.map_map, List.map_map]; exact List.Perm.refl _)
  have hfin : (List.insertionSort elemKeyLe
        (es.map (fun v => (sortKeyOf v, json_dumps v)))).map (fun p => jsonOfSortKey p.1) =
      ((List.insertionSort elemKeyLe (es.map (fun v => (sortKeyOf v, v)))).map
        Prod.fst).map jsonOfSortKey := by
    rw [← hks, List.map_map]
    rfl
  rw [hfin]

/-- Equal `_serialize_collection` results on two sets give equal
`process_arg` results (the collection branch is taken for both, and the
type name is `set` for both). -/
theorem process_arg_set_congr {H : String → String} {excl : List String} {maxLen : Nat}
    {f : Func} {l1 l2 : List Value}
    (h : serialize_collection H excl (.vSet l1) = serialize_collection H excl (.vSet l2)) :
    process_arg H excl maxLen f (.vSet l1) = process_arg H excl maxLen f (.vSet l2) := by
  unfold process_arg
  dsimp only [isCollection, typeName]
  rw [if_pos rfl, if_pos rfl, h]

/-- Equal `json.dumps` results on two frozensets give equal `process_arg`
results (a frozenset is not an instance of `(dict, list, tuple, set)`, so
the scalar branch is taken for both). -/
theorem process_arg_frozenset_congr {H : String → String} {excl : List String} {maxLen : Nat}
    {f : Func} {l1 l2 : List Value}
    (h : json_dumps (.vFrozenset l1) = json_dumps (.vFrozenset l2)) :
    process_arg H excl maxLen f (.vFrozenset l1) = process_arg H excl maxLen f (.vFrozenset l2) := by
  unfold process_arg
  dsimp only [isCollection, typeName]
  rw [if_neg (by simp), if_neg (by simp), h]

/-- C7: refuted as stated. Two `set` arguments containing the same
elements (a permutation of each other) can produce different cache keys:
the `(type name, str)` sort key need not determine an element when the
elements are pk-bearing objects sharing a type name and a string form, and
Python's stable sort then preserves the insertion-order tie, which the
`TypeName:pk` serialization exposes. -/
theorem c7_set_order_counterexample :
    ([Value.vObjPk "A" "1" "x", Value.vObjPk "A" "2" "x"].Perm
      [Value.vObjPk "A" "2" "x", Value.vObjPk "A" "1" "x"]) ∧
    generate_key H0 kg0 f0
        [Value.vSet [Value.vObjPk "A" "1" "x", Value.vObjPk "A" "2" "x"]] [] none ≠
      generate_key H0 kg0 f0
        [Value.vSet [Value.vObjPk "A" "2" "x", Value.vObjPk "A" "1" "x"]] [] none :=
  ⟨List.Perm.swap _ _ _, by decide⟩

/-- C7 (amended): for set and frozenset arguments whose elements are
determined by their `(type name, str)` sort key — the built-in scalars
(`None`, booleans, integers, strings, datetimes) and custom-named enum
members and opaque objects, in any heterogeneous mixture — element order
is canonicalized away: any permutation of the elements yields the
byte-identical cache key, whatever the surrounding arguments, keyword
arguments and expiration date are. -/
theorem c7_set_order_amended {H : String → String} {kg : KeyGenerator} {f : Func}
    {es1 es2 : List Value} (pre post : List Value) (kwargs : List (String × Value))
    (exp : Option PyDatetime) (hperm : es1.Perm es2)
    (hok : ∀ v ∈ es1, setElemOk v = true) :
    generate_key H kg f (pre ++ Value.vSet es1 :: post) kwargs exp =
      generate_key H kg f (pre ++ Value.vSet es2 :: post) kwargs exp ∧
    generate_key H kg f (pre ++ Value.vFrozenset es1 :: post) kwargs exp =
      generate_key H kg f (pre ++ Value.vFrozenset es2 :: post) kwargs exp := by
  have hok2 : ∀ v ∈ es2, setElemOk v = true := fun v hv => hok v (hperm.mem_iff.mpr hv)
  have hkeys := sortedKeys_perm_eq (es1.map (fun v => (sortKeyOf v, v)))
    (es2.map (fun v => (sortKeyOf v, v)))
    (by rw [List.map_map, List.map_map]; exact hperm.map _)
  constructor
  · exact generate_key_congr_params (simple_params_congr_one _ _ _ _ pre post kwargs
      (process_arg_set_congr (by
        rw [serialize_collection_via_json, serialize_collection_via_json,
          collection_json_set_ok hok, collection_json_set_ok hok2, hkeys])))
  · exact generate_key_congr_params (simple_params_congr_one _ _ _ _ pre post kwargs
      (process_arg_frozenset_congr (by
        rw [json_dumps_frozenset_ok hok, json_dumps_frozenset_ok hok2, hkeys])))

theorem c7_set_order_amended_witness :
    generate_key H0 kg0 f0
        ([] ++ Value.vSet [Value.vInt 3, Value.vInt 1, Value.vInt 2] :: []) [] none =
      generate_key H0 kg0 f0
        ([] ++ Value.vSet [Value.vInt 2, Value.vInt 3, Value.vInt 1] :: []) [] none ∧
    generate_key H0 kg0 f0
        ([] ++ Value.vFrozenset [Value.vInt 3, Value.vInt 1, Value.vInt 2] :: []) [] none =
      generate_key H0 kg0 f0
        ([] ++ Value.vFrozenset [Value.vInt 2, Value.vInt 3, Value.vInt 1] :: []) [] none :=
  c7_set_order_amended [] [] [] none
    ((List.Perm.cons (Value.vInt 3) (List.Perm.swap (Value.vInt 2) (Value.vInt 1) [])).trans
      (List.Perm.swap (Value.vInt 2) (Value.vInt 3) [Value.vInt 1]))
    (by decide)

end EasyCache
